import Mathlib

/-!
Shallow embedding of the TotalRecall solitaire rule engine.

The definitions below are translated from the repository's TypeScript
sources: `src/lib/game.ts` (deck construction and `setupGame`),
`src/lib/types.ts` (the data model) and the current `GameBoard` component
(the "Recall" board, `src/unnamed/part_006`), which owns every state
transition: `getCompletedSets`, `checkWinCondition`, `processNarrativeSet`,
the narrative-drop validator inside `handleDrop`, the King/Queen/Jack
handlers, the narrative-pile discard, the exhaustion-loss effect and the
top-row refresh effect.

Conventions used throughout:
* JavaScript arrays that are only popped from the back (`mainDeck.pop()`)
  are modelled as Lean lists whose HEAD is the array's BACK, so `pop`
  becomes `head?`/`tail`.
* `playDeck` is a two-element array of rows in the source; it is modelled
  as the two explicit fields `playDeck0` (front row) and `playDeck1`
  (back row).
* `memoryPiles` is a `Record<Suit, MemoryPile>` with the four suit keys;
  the extra `jokerPile` field models what a lookup at the out-of-domain
  key `'joker'` would touch.  No card of the standard deck built by
  `createDeck` ever reaches it (the source would throw there).
* The engine's pending royal decisions live in React component state
  (`kingAction`, `queenAction`, `jackAction`, `isDiscardMode`,
  `confirmDiscard`, `showResurrectDialog`); `BoardState` packages them
  next to the `GameState` exactly as the component does.
-/

/-- Card suits, `src/lib/types.ts`.  The two Jokers built by `createDeck`
carry the extra suit tag `'joker'`. -/
inductive Suit where
  | spades | hearts | clubs | diamonds | joker
deriving DecidableEq, Repr

/-- Card ranks `'A' | '2' | ... | 'K' | 'Joker'`, `src/lib/types.ts`. -/
inductive Rank where
  | ace | two | three | four | five | six | seven | eight | nine | ten
  | jack | queen | king | joker
deriving DecidableEq, Repr

/-- `getRankValue` from the GameBoard: `RANK_ORDER.indexOf(rank)` for the
thirteen standard ranks and `-1` for a Joker. -/
def rankValue : Rank → Int
  | .ace => 0 | .two => 1 | .three => 2 | .four => 3 | .five => 4
  | .six => 5 | .seven => 6 | .eight => 7 | .nine => 8 | .ten => 9
  | .jack => 10 | .queen => 11 | .king => 12 | .joker => -1

/-- `Card` from `src/lib/types.ts`. -/
structure Card where
  id : String
  suit : Suit
  rank : Rank
deriving DecidableEq, Repr

/-- `Goal` from `src/lib/types.ts` (the `id` field duplicates the suit and
carries no game logic, so it is dropped here). -/
structure Goal where
  suit : Suit
  count : Nat
deriving DecidableEq, Repr

/-- `MemoryPile` from `src/lib/types.ts`. -/
structure MemoryPile where
  cards : List Card
  completedWithQueens : Nat
deriving DecidableEq, Repr

/-- The `Record<Suit, MemoryPile>` of the game state.  `jokerPile` stands
for the absent `'joker'` entry, see the file comment. -/
structure MemoryPiles where
  spadesPile : MemoryPile
  heartsPile : MemoryPile
  clubsPile : MemoryPile
  diamondsPile : MemoryPile
  jokerPile : MemoryPile
deriving DecidableEq, Repr

/-- `memoryPiles[suit]`. -/
def MemoryPiles.get (p : MemoryPiles) : Suit → MemoryPile
  | .spades => p.spadesPile
  | .hearts => p.heartsPile
  | .clubs => p.clubsPile
  | .diamonds => p.diamondsPile
  | .joker => p.jokerPile

/-- `memoryPiles[suit] = pile` (in the source the pile object is mutated in
place). -/
def MemoryPiles.set (p : MemoryPiles) (s : Suit) (pile : MemoryPile) : MemoryPiles :=
  match s with
  | .spades => { p with spadesPile := pile }
  | .hearts => { p with heartsPile := pile }
  | .clubs => { p with clubsPile := pile }
  | .diamonds => { p with diamondsPile := pile }
  | .joker => { p with jokerPile := pile }

/-- `NarrativeSequence` from `src/lib/types.ts`. -/
structure NarrativeSequence where
  id : String
  cards : List Card
deriving DecidableEq, Repr

/-- `gameStatus : 'playing' | 'won' | 'lost'`. -/
inductive Status where
  | playing | won | lost
deriving DecidableEq, Repr

/-- `GameState` from `src/lib/types.ts`.  `startTime` and the append-only
`history` field never feed back into rule evaluation and are omitted. -/
structure GameState where
  goals : List Goal
  playDeck0 : List (Option Card)
  playDeck1 : List (Option Card)
  narrativeDeck : List NarrativeSequence
  forgottenPile : List Card
  memoryPiles : MemoryPiles
  mainDeck : List Card
  gameStatus : Status
deriving DecidableEq, Repr

/-- `playDeck[row][col]` for the two rows (any other row index reads as an
empty slot; the component only ever uses rows 0 and 1). -/
def getSlot (s : GameState) (row col : Nat) : Option Card :=
  if row = 0 then (s.playDeck0.getD col none)
  else if row = 1 then (s.playDeck1.getD col none)
  else none

/-- `playDeck[row][col] = v` for the two rows. -/
def setSlot (s : GameState) (row col : Nat) (v : Option Card) : GameState :=
  if row = 0 then { s with playDeck0 := s.playDeck0.set col v }
  else if row = 1 then { s with playDeck1 := s.playDeck1.set col v }
  else s

/-- `CARDS_PER_SET = 3`; `getCompletedSets` from the GameBoard:
`Math.floor(pile.cards.length / 3) + pile.completedWithQueens`. -/
def getCompletedSets (pile : MemoryPile) : Nat :=
  pile.cards.length / 3 + pile.completedWithQueens

/-- The goal record for a suit: `state.goals.find(g => g.suit === suit)`.
The source dereferences the result with a non-null assertion; states built
by `setupGame` always carry one goal per real suit, so the `0` default of
the missing case is never consulted there. -/
def goalCount (s : GameState) (suit : Suit) : Nat :=
  match s.goals.find? (fun g => decide (g.suit = suit)) with
  | some g => g.count
  | none => 0

/-- `checkWinCondition` from the current GameBoard: every goal's suit has
`completedSets >= goal.count`. -/
def checkWinCondition (s : GameState) : Bool :=
  s.goals.all (fun goal => decide (getCompletedSets (s.memoryPiles.get goal.suit) ≥ goal.count))

/-- Minimum of a list of rank values; on a non-empty list this equals the
first element after the source's ascending sort. -/
def listMinD : List Int → Int
  | [] => 0
  | v :: vs => vs.foldl min v

/-- Maximum of a list of rank values; on a non-empty list this equals the
last element after the source's ascending sort. -/
def listMaxD : List Int → Int
  | [] => 0
  | v :: vs => vs.foldl max v

/-- The `isSet` test of `processNarrativeSet`, factored out: after
separating Jokers, a full sequence resolves when the ranked cards span the
window that the available Jokers can fill. -/
def narrativeResolves (s : GameState) (i : Nat) : Bool :=
  match s.narrativeDeck.get? i with
  | none => false
  | some seq =>
    if seq.cards.length < 3 then false
    else
      match seq.cards.filter (fun c => !decide (c.rank = Rank.joker)) with
      | [] => false
      | nonJokers@(_ :: _) =>
        let values := nonJokers.map (fun c => rankValue c.rank)
        let minRank := listMinD values
        let maxRank := listMaxD values
        let rankDiff := maxRank - minRank
        if nonJokers.length = 3 then decide (rankDiff = 2)
        else if nonJokers.length = 2 then decide (rankDiff ≤ 2)
        else if nonJokers.length = 1 then true
        else false

/-- `processNarrativeSet` from the current GameBoard.  Returns the updated
state together with the `lossOccurred` flag the source returns.  On a
resolving set all sequence cards are appended to the suit's memory pile,
the slot is emptied, and the overrun/win checks run immediately. -/
def processNarrativeSet (s : GameState) (i : Nat) : GameState × Bool :=
  match s.narrativeDeck.get? i with
  | none => (s, false)
  | some seq =>
    if seq.cards.length < 3 then (s, false)
    else
      match seq.cards.filter (fun c => !decide (c.rank = Rank.joker)) with
      | [] => (s, false)
      | first :: _ =>
        if narrativeResolves s i then
          let suit := first.suit
          let pile := s.memoryPiles.get suit
          let pile' := { pile with cards := pile.cards ++ seq.cards }
          let s1 := { s with
            memoryPiles := s.memoryPiles.set suit pile',
            narrativeDeck := s.narrativeDeck.set i { seq with cards := [] } }
          if getCompletedSets pile' > goalCount s1 suit then
            ({ s1 with gameStatus := .lost }, true)
          else if checkWinCondition s1 then
            ({ s1 with gameStatus := .won }, false)
          else (s1, false)
        else (s, false)

/-- The narrative-sequence admission rule inside `handleDrop` (the
joker-aware validator): suit match (Wilds are suit-agnostic), no duplicate
rank (Wilds exempt), and the rank-fit window over the non-Joker ranks
already present.  `true` means the drop is admitted. -/
def canDropOnSequence (seqCards : List Card) (card : Card) : Bool :=
  let nonJokerCards := seqCards.filter (fun c => !decide (c.rank = Rank.joker))
  let sequenceSuit : Option Suit :=
    match nonJokerCards with
    | c :: _ => some c.suit
    | [] => if card.suit = Suit.joker then none else some card.suit
  let suitClash :=
    !decide (card.rank = Rank.joker) &&
      (match sequenceSuit with
       | some s => !decide (card.suit = s)
       | none => false)
  if suitClash then false
  else if seqCards.any (fun c => decide (c.rank = card.rank) && !decide (card.rank = Rank.joker)) then
    false
  else
    let cardRankValue := rankValue card.rank
    let ranksInSequence := nonJokerCards.map (fun c => rankValue c.rank)
    let minRank := listMinD ranksInSequence
    let maxRank := listMaxD ranksInSequence
    if !decide (card.rank = Rank.joker) then
      if ranksInSequence.length = 1 then
        decide ((cardRankValue - minRank).natAbs ≤ 2)
      else if ranksInSequence.length = 2 then
        let isAdjacent := decide (cardRankValue = minRank - 1) || decide (cardRankValue = maxRank + 1)
        let isBetween := decide (cardRankValue > minRank) && decide (cardRankValue < maxRank)
        let rankDiff := maxRank - minRank
        if rankDiff = 1 then isAdjacent
        else if rankDiff = 2 then isBetween
        else false
      else true
    else true

/-- `sequence.cards.push(card)` in `handleDrop`. -/
def pushToSequence (s : GameState) (seqIndex : Nat) (card : Card) : GameState :=
  match s.narrativeDeck.get? seqIndex with
  | some seq =>
    { s with narrativeDeck := s.narrativeDeck.set seqIndex { seq with cards := seq.cards ++ [card] } }
  | none => s

/-- The played column's cascade, shared by `handleDrop` and the Queen's
`completeSet` branch: the played slot receives the back-row card and the
back-row slot is refilled from the reserve
(`playDeck[row][col] = playDeck[1][col]; playDeck[1][col] = mainDeck.pop() ?? null`). -/
def cascadeColumn (s : GameState) (row col : Nat) : GameState :=
  let s1 := setSlot s row col (s.playDeck1.getD col none)
  { s1 with
    playDeck1 := s1.playDeck1.set col s1.mainDeck.head?,
    mainDeck := s1.mainDeck.tail }

/-- The narrative branch of `handleDrop` after its admission checks have
passed: push the card onto the sequence, cascade the played column,
resolve the sequence, then re-run the win check.  Only front-row (row 0)
cards are draggable in the component. -/
def applyDropOnNarrative (s : GameState) (col seqIndex : Nat) (card : Card) : GameState :=
  let s2 := cascadeColumn (pushToSequence s seqIndex card) 0 col
  let r := processNarrativeSet s2 seqIndex
  if r.2 then r.1
  else if checkWinCondition r.1 then { r.1 with gameStatus := .won }
  else r.1

/-- The `'forgotten'` branch of `handleDrop`: a discard empties the slot
without cascading. -/
def applyDropOnForgotten (s : GameState) (col : Nat) (card : Card) : GameState :=
  { s with
    forgottenPile := s.forgottenPile ++ [card],
    playDeck0 := s.playDeck0.set col none }

/-- Index of the first slot in a row holding a card with the given id
(the royal handlers' scan loop). -/
def findInRow : List (Option Card) → String → Option Nat
  | [], _ => none
  | none :: rest, i => (findInRow rest i).map (· + 1)
  | some c :: rest, i => if c.id = i then some 0 else (findInRow rest i).map (· + 1)

/-- The row-major play-deck scan shared by the King and Queen handlers. -/
def findCardPos (s : GameState) (i : String) : Option (Nat × Nat) :=
  match findInRow s.playDeck0 i with
  | some j => some (0, j)
  | none =>
    match findInRow s.playDeck1 i with
    | some j => some (1, j)
    | none => none

/-- `handleKingAction`: null the King's slot and push the King onto the
forgotten pile (both choices do this; `discardNarrative` additionally arms
discard mode, tracked on `BoardState`).  When the scan misses, the source
logs an error and still pushes the card. -/
def applyKingAction (s : GameState) (card : Card) : GameState :=
  match findCardPos s card.id with
  | some (r, c) =>
    let s1 := setSlot s r c none
    { s1 with forgottenPile := s1.forgottenPile ++ [card] }
  | none =>
    { s with forgottenPile := s.forgottenPile ++ [card] }

/-- A Queen's two follow-up choices. -/
inductive QueenChoice where
  | completeSet | discardQueen
deriving DecidableEq, Repr

/-- `handleQueenAction`: locate the Queen; `completeSet` (refused for a
Joker Queen) discards her, cascades her column, bumps the suit's
Queen-completed counter and runs the overrun/win checks; `discardQueen`
just empties the slot and discards her. -/
def applyQueenAction (s : GameState) (choice : QueenChoice) (card : Card) : GameState :=
  match findCardPos s card.id with
  | none => s
  | some (qr, qc) =>
    match choice with
    | .completeSet =>
      if card.suit = Suit.joker then s
      else
        let s1 := { s with forgottenPile := s.forgottenPile ++ [card] }
        let s3 := cascadeColumn s1 qr qc
        let pile := s3.memoryPiles.get card.suit
        let pile' := { pile with completedWithQueens := pile.completedWithQueens + 1 }
        let s4 := { s3 with memoryPiles := s3.memoryPiles.set card.suit pile' }
        if getCompletedSets pile' > goalCount s4 card.suit then { s4 with gameStatus := .lost }
        else if checkWinCondition s4 then { s4 with gameStatus := .won }
        else s4
    | .discardQueen =>
      let s1 := setSlot s qr qc none
      { s1 with forgottenPile := s1.forgottenPile ++ [card] }

/-- The `discardJack` branch of `handleJackAction`: empty the Jack's
remembered slot and discard him. -/
def applyJackDiscard (s : GameState) (card : Card) (row col : Nat) : GameState :=
  let s1 := setSlot s row col none
  { s1 with forgottenPile := s1.forgottenPile ++ [card] }

/-- `findIndex` + `splice(idx, 1)`: drop the first card with the given id. -/
def removeFirstById : List Card → String → List Card
  | [], _ => []
  | c :: rest, i => if c.id = i then rest else c :: removeFirstById rest i

/-- `handleResurrectSelect`: remove the chosen card from the forgotten
pile, discard the Jack, and place the chosen card into the Jack's slot. -/
def applyResurrect (s : GameState) (jackCard : Card) (row col : Nat) (selected : Card) : GameState :=
  let fp := removeFirstById s.forgottenPile selected.id
  let s1 := { s with forgottenPile := fp ++ [jackCard] }
  setSlot s1 row col (some selected)

/-- `handleConfirmDiscard(true)` with a pending King discard: move every
card of the chosen narrative sequence to the forgotten pile and leave the
slot empty. -/
def applyConfirmDiscard (s : GameState) (i : Nat) : GameState :=
  match s.narrativeDeck.get? i with
  | none => s
  | some seq =>
    { s with
      forgottenPile := s.forgottenPile ++ seq.cards,
      narrativeDeck := s.narrativeDeck.set i { seq with cards := [] } }

/-- `playDeck.flat().every(c => c === null)`. -/
def allPlaySlotsEmpty (s : GameState) : Bool :=
  s.playDeck0.all (fun o => o.isNone) && s.playDeck1.all (fun o => o.isNone)

/-- The exhaustion-loss effect: while playing, an empty reserve and a
fully empty play area with the win condition unmet turn the status to
lost. -/
def exhaustionCheck (s : GameState) : GameState :=
  if decide (s.gameStatus = .playing) && decide (s.mainDeck.length = 0)
      && allPlaySlotsEmpty s && !checkWinCondition s then
    { s with gameStatus := .lost }
  else s

/-- Draw `n` optional slots from the reserve (`deck.pop() ?? null`,
repeated). -/
def drawSlots : Nat → List Card → List (Option Card) × List Card
  | 0, d => ([], d)
  | n + 1, [] =>
    let r := drawSlots n []
    (none :: r.1, r.2)
  | n + 1, c :: cs =>
    let r := drawSlots n cs
    (some c :: r.1, r.2)

/-- The top-row refresh effect: when the whole front row is empty and the
reserve is not, promote the back row and deal it four fresh slots.  Its
guards (status, emptiness, non-empty reserve) sit on the step relation. -/
def applyRefresh (s : GameState) : GameState :=
  let r := drawSlots 4 s.mainDeck
  { s with playDeck0 := s.playDeck1, playDeck1 := r.1, mainDeck := r.2 }

/-- `isPlayable` from the current GameBoard: back-row cards are never
directly playable; a front-row card is playable only when every front-row
slot to its left is empty. -/
def isPlayable (s : GameState) (rowIndex colIndex : Nat) : Bool :=
  if !decide (s.gameStatus = .playing) then false
  else
    match getSlot s rowIndex colIndex with
    | none => false
    | some _ =>
      if rowIndex = 1 then false
      else if rowIndex = 0 then (s.playDeck0.take colIndex).all (fun o => o.isNone)
      else false

/-- `ROYAL_RANKS.includes(card.rank) || card.rank === 'Joker'` from
`setupGame`. -/
def isRoyalOrJokerRank (r : Rank) : Bool :=
  decide (r = .jack) || decide (r = .queen) || decide (r = .king) || decide (r = .joker)

/-- The narrative-deal loop of `setupGame`: pop cards until four
one-card sequences exist, setting royals and Jokers aside.  Returns the
sequences, the undealt remainder and the held-back cards. -/
def dealNarrative : List Card → List NarrativeSequence → List Card →
    List NarrativeSequence × List Card × List Card
  | [], narr, held => (narr, [], held)
  | c :: rest, narr, held =>
    if narr.length ≥ 4 then (narr, c :: rest, held)
    else if isRoyalOrJokerRank c.rank then dealNarrative rest narr (held ++ [c])
    else dealNarrative rest (narr ++ [{ id := "narrative-" ++ toString narr.length, cards := [c] }]) held

/-- Display names used in card ids, mirroring the template literal
`\x7b rank \x7d-\x7b suit \x7d` of `createDeck`. -/
def rankName : Rank → String
  | .ace => "A" | .two => "2" | .three => "3" | .four => "4" | .five => "5"
  | .six => "6" | .seven => "7" | .eight => "8" | .nine => "9" | .ten => "10"
  | .jack => "J" | .queen => "Q" | .king => "K" | .joker => "Joker"

/-- Suit names as they appear in card ids. -/
def suitName : Suit → String
  | .spades => "spades" | .hearts => "hearts" | .clubs => "clubs"
  | .diamonds => "diamonds" | .joker => "joker"

/-- The thirteen standard ranks, `RANKS` in `src/lib/game.ts`. -/
def standardRanks : List Rank :=
  [.ace, .two, .three, .four, .five, .six, .seven, .eight, .nine, .ten, .jack, .queen, .king]

/-- `createDeck`: the 52 standard cards plus two Jokers. -/
def createDeck : List Card :=
  ([Suit.spades, .hearts, .clubs, .diamonds].flatMap (fun suit =>
    standardRanks.map (fun rank =>
      { id := rankName rank ++ "-" ++ suitName suit, suit := suit, rank := rank })))
  ++ [{ id := "Joker-1", suit := .joker, rank := .joker },
      { id := "Joker-2", suit := .joker, rank := .joker }]

/-- `setupGame` from `src/lib/game.ts`.  Randomness is externalised: the
already-shuffled deck, the goal list produced by `generateGoals`, and the
second shuffle (applied after the held-back royals rejoin the pool) are
parameters. -/
def setupGame (goals : List Goal) (deck : List Card)
    (reshuffle : List Card → List Card) : GameState :=
  let dealt := dealNarrative deck [] []
  let deck2 := reshuffle (dealt.2.2.reverse ++ dealt.2.1)
  let d0 := drawSlots 4 deck2
  let d1 := drawSlots 4 d0.2
  { goals := goals
    playDeck0 := d0.1
    playDeck1 := d1.1
    narrativeDeck := dealt.1
    forgottenPile := []
    memoryPiles := ⟨⟨[], 0⟩, ⟨[], 0⟩, ⟨[], 0⟩, ⟨[], 0⟩, ⟨[], 0⟩⟩
    mainDeck := d1.2
    gameStatus := .playing }

/-- The GameBoard component's full state: the game plus the pending
royal-decision dialogs held in React state. -/
structure BoardState where
  game : GameState
  kingAction : Option Card
  queenAction : Option Card
  jackAction : Option (Card × Nat × Nat)
  isDiscardMode : Bool
  confirmDiscard : Option Nat
  showResurrectDialog : Bool
deriving DecidableEq, Repr

/-- The component mounts with no dialog open. -/
def initialBoard (g : GameState) : BoardState :=
  ⟨g, none, none, none, false, none, false⟩

/-- `handleKingClick`: opens the King dialog; no game mutation. -/
def clickKing (b : BoardState) (card : Card) : BoardState :=
  if b.game.gameStatus = Status.playing then { b with kingAction := some card } else b

/-- The King dialog's Cancel button: `setKingAction(null)` only. -/
def cancelKing (b : BoardState) : BoardState :=
  { b with kingAction := none }

/-- Committing a King choice (`discardNarrative` additionally arms discard
mode). -/
def resolveKing (b : BoardState) (discardNarrative : Bool) (card : Card) : BoardState :=
  { b with
    game := applyKingAction b.game card,
    isDiscardMode := if discardNarrative then true else b.isDiscardMode,
    kingAction := none }

/-- `handleQueenClick`. -/
def clickQueen (b : BoardState) (card : Card) : BoardState :=
  if b.game.gameStatus = Status.playing then { b with queenAction := some card } else b

/-- The Queen dialog's Cancel button. -/
def cancelQueen (b : BoardState) : BoardState :=
  { b with queenAction := none }

/-- Committing a Queen choice. -/
def resolveQueen (b : BoardState) (choice : QueenChoice) (card : Card) : BoardState :=
  { b with game := applyQueenAction b.game choice card, queenAction := none }

/-- `handleJackClick` remembers the Jack and its position. -/
def clickJack (b : BoardState) (card : Card) (row col : Nat) : BoardState :=
  if b.game.gameStatus = Status.playing then { b with jackAction := some (card, row, col) } else b

/-- The Jack dialog's Cancel button. -/
def cancelJack (b : BoardState) : BoardState :=
  { b with jackAction := none }

/-- The `discardJack` choice. -/
def resolveJackDiscard (b : BoardState) (card : Card) (row col : Nat) : BoardState :=
  { b with game := applyJackDiscard b.game card row col, jackAction := none }

/-- The `resurrectCard` choice: with an empty forgotten pile it is refused
(toast) and the pending Jack is dropped with the game untouched; otherwise
the selection dialog opens. -/
def chooseJackResurrect (b : BoardState) : BoardState :=
  match b.jackAction with
  | none => b
  | some _ =>
    if b.game.forgottenPile.length = 0 then { b with jackAction := none }
    else { b with showResurrectDialog := true }

/-- Picking a card in the resurrect dialog. -/
def selectResurrect (b : BoardState) (jackCard : Card) (row col : Nat) (selected : Card) :
    BoardState :=
  { b with
    game := applyResurrect b.game jackCard row col selected,
    showResurrectDialog := false,
    jackAction := none }

/-- `handleNarrativeCardClick` in discard mode. -/
def clickNarrativeForDiscard (b : BoardState) (i : Nat) : BoardState :=
  if b.isDiscardMode then { b with confirmDiscard := some i } else b

/-- `handleConfirmDiscard`. -/
def resolveConfirmDiscard (b : BoardState) (confirmed : Bool) : BoardState :=
  match b.confirmDiscard with
  | none => b
  | some i =>
    if confirmed then
      { b with game := applyConfirmDiscard b.game i, isDiscardMode := false, confirmDiscard := none }
    else
      { b with confirmDiscard := none, isDiscardMode := false }

/-- A narrative drop at board level. -/
def dropOnNarrative (b : BoardState) (col seqIndex : Nat) (card : Card) : BoardState :=
  { b with game := applyDropOnNarrative b.game col seqIndex card }

/-- A forgotten-pile drop at board level. -/
def dropOnForgotten (b : BoardState) (col : Nat) (card : Card) : BoardState :=
  { b with game := applyDropOnForgotten b.game col card }

/-- The exhaustion effect at board level. -/
def stepExhaustion (b : BoardState) : BoardState :=
  { b with game := exhaustionCheck b.game }

/-- The refresh effect at board level. -/
def stepRefresh (b : BoardState) : BoardState :=
  { b with game := applyRefresh b.game }

/-- The ids contributed by one optional slot. -/
def optIds : Option Card → Multiset String
  | none => 0
  | some c => {c.id}

/-- The ids of a plain card list. -/
def cardListIds : List Card → Multiset String
  | [] => 0
  | c :: t => c.id ::ₘ cardListIds t

/-- The ids held in a play row. -/
def rowIds : List (Option Card) → Multiset String
  | [] => 0
  | o :: t => optIds o + rowIds t

/-- The ids held across the narrative sequences. -/
def seqListIds : List NarrativeSequence → Multiset String
  | [] => 0
  | sq :: t => cardListIds sq.cards + seqListIds t

/-- The ids held across the five memory-pile entries. -/
def pilesIds (p : MemoryPiles) : Multiset String :=
  cardListIds p.spadesPile.cards + cardListIds p.heartsPile.cards +
  cardListIds p.clubsPile.cards + cardListIds p.diamondsPile.cards +
  cardListIds p.jokerPile.cards

/-- The multiset of card ids spread across every container of the game
state. -/
def gameCardIds (s : GameState) : Multiset String :=
  rowIds s.playDeck0 + rowIds s.playDeck1 + seqListIds s.narrativeDeck +
  pilesIds s.memoryPiles + cardListIds s.forgottenPile + cardListIds s.mainDeck

theorem cardListIds_append (l₁ l₂ : List Card) :
    cardListIds (l₁ ++ l₂) = cardListIds l₁ + cardListIds l₂ := by
  induction l₁ with
  | nil => simp [cardListIds]
  | cons c t ih => simp [cardListIds, ih]

theorem cardListIds_head_tail (l : List Card) :
    optIds l.head? + cardListIds l.tail = cardListIds l := by
  cases l with
  | nil => simp [optIds, cardListIds]
  | cons c t => simp [optIds, cardListIds, Multiset.singleton_add]

theorem rowIds_set (l : List (Option Card)) (c : Nat) (v o : Option Card)
    (h : l.get? c = some o) :
    rowIds (l.set c v) + optIds o = rowIds l + optIds v := by
  induction l generalizing c with
  | nil => simp at h
  | cons a t ih =>
    cases c with
    | zero =>
      simp only [List.get?] at h
      cases h
      simp only [List.set, rowIds]
      abel
    | succ c =>
      simp only [List.get?] at h
      simp only [List.set, rowIds]
      calc optIds a + rowIds (t.set c v) + optIds o
          = optIds a + (rowIds (t.set c v) + optIds o) := by abel
        _ = optIds a + (rowIds t + optIds v) := by rw [ih c h]
        _ = optIds a + rowIds t + optIds v := by abel

theorem seqListIds_set (l : List NarrativeSequence) (i : Nat) (sq' sq : NarrativeSequence)
    (h : l.get? i = some sq) :
    seqListIds (l.set i sq') + cardListIds sq.cards
      = seqListIds l + cardListIds sq'.cards := by
  induction l generalizing i with
  | nil => simp at h
  | cons a t ih =>
    cases i with
    | zero =>
      simp only [List.get?] at h
      cases h
      simp only [List.set, seqListIds]
      abel
    | succ i =>
      simp only [List.get?] at h
      simp only [List.set, seqListIds]
      calc cardListIds a.cards + seqListIds (t.set i sq') + cardListIds sq.cards
          = cardListIds a.cards + (seqListIds (t.set i sq') + cardListIds sq.cards) := by abel
        _ = cardListIds a.cards + (seqListIds t + cardListIds sq'.cards) := by rw [ih i h]
        _ = cardListIds a.cards + seqListIds t + cardListIds sq'.cards := by abel

theorem pilesIds_set (p : MemoryPiles) (s : Suit) (pile : MemoryPile) :
    pilesIds (p.set s pile) + cardListIds (p.get s).cards
      = pilesIds p + cardListIds pile.cards := by
  cases s <;> simp [MemoryPiles.set, MemoryPiles.get, pilesIds] <;> abel

theorem removeFirstById_ids (l : List Card) (i : String)
    (h : ∃ y ∈ l, y.id = i) :
    i ::ₘ cardListIds (removeFirstById l i) = cardListIds l := by
  induction l with
  | nil => simp at h
  | cons c t ih =>
    by_cases hc : c.id = i
    · simp [removeFirstById, hc, cardListIds]
    · obtain ⟨y, hy, hyi⟩ := h
      rcases List.mem_cons.mp hy with hy' | hy'
      · exact absurd (hy' ▸ hyi) hc
      · simp only [removeFirstById, hc, if_false, cardListIds]
        rw [Multiset.cons_swap]
        rw [ih ⟨y, hy', hyi⟩]

theorem findInRow_spec (l : List (Option Card)) (i : String) (j : Nat)
    (h : findInRow l i = some j) :
    ∃ c : Card, l.get? j = some (some c) ∧ c.id = i := by
  induction l generalizing j with
  | nil => simp [findInRow] at h
  | cons o t ih =>
    cases o with
    | none =>
      simp only [findInRow] at h
      cases hj : findInRow t i with
      | none => rw [hj] at h; simp at h
      | some j' =>
        rw [hj] at h
        simp only [Option.map] at h
        cases h
        obtain ⟨c, hc, hci⟩ := ih j' hj
        exact ⟨c, hc, hci⟩
    | some c =>
      by_cases hc : c.id = i
      · simp only [findInRow, hc, if_pos rfl] at h
        cases h
        exact ⟨c, rfl, hc⟩
      · simp only [findInRow, hc, if_false] at h
        cases hj : findInRow t i with
        | none => rw [hj] at h; simp at h
        | some j' =>
          rw [hj] at h
          simp only [Option.map] at h
          cases h
          obtain ⟨c', hc', hci⟩ := ih j' hj
          exact ⟨c', hc', hci⟩

theorem drawSlots_ids (n : Nat) (d : List Card) :
    rowIds (drawSlots n d).1 + cardListIds (drawSlots n d).2 = cardListIds d := by
  induction n generalizing d with
  | zero => simp [drawSlots, rowIds]
  | succ n ih =>
    cases d with
    | nil =>
      simp only [drawSlots, rowIds, optIds]
      rw [zero_add]
      exact ih []
    | cons c cs =>
      simp only [drawSlots, rowIds, optIds, cardListIds]
      calc ({c.id} : Multiset String) + rowIds (drawSlots n cs).1 + cardListIds (drawSlots n cs).2
          = {c.id} + (rowIds (drawSlots n cs).1 + cardListIds (drawSlots n cs).2) := by abel
        _ = {c.id} + cardListIds cs := by rw [ih cs]
        _ = c.id ::ₘ cardListIds cs := by rw [Multiset.singleton_add]

theorem rowIds_of_all_none (l : List (Option Card)) (h : l.all (fun o => o.isNone) = true) :
    rowIds l = 0 := by
  induction l with
  | nil => rfl
  | cons o t ih =>
    simp only [List.all_cons, Bool.and_eq_true] at h
    cases o with
    | none => simpa [rowIds, optIds] using ih h.2
    | some c => simp [Option.isNone] at h

theorem getD_none_eq_get? (l : List (Option Card)) (c : Nat) (x : Card)
    (h : l.getD c none = some x) : l.get? c = some (some x) := by
  induction l generalizing c with
  | nil => simp [List.getD] at h
  | cons a t ih =>
    cases c with
    | zero => simpa [List.getD] using h
    | succ c =>
      simp only [List.getD, List.get?] at h ⊢
      exact ih c h

theorem get?_set_self (l : List (Option Card)) (i : Nat) (v : Option Card)
    (h : i < l.length) : (l.set i v).get? i = some v := by
  induction l generalizing i with
  | nil => simp at h
  | cons a t ih =>
    cases i with
    | zero => rfl
    | succ i => exact ih i (Nat.lt_of_succ_lt_succ h)

theorem getD_of_get? (l : List (Option Card)) (c : Nat) (o : Option Card)
    (h : l.get? c = some o) : l.getD c none = o := by
  induction l generalizing c with
  | nil => simp at h
  | cons a t ih =>
    cases c with
    | zero =>
      simp only [List.get?] at h
      cases h
      rfl
    | succ c =>
      simp only [List.get?] at h
      simpa [List.getD] using ih c h

theorem add_swap_cancel {A B C D : Multiset String} (h : A + C = B + (C + D)) : A = B + D := by
  have h2 : A + C = (B + D) + C := by rw [h]; abel
  exact add_right_cancel h2

theorem pilesIds_append (p : MemoryPiles) (s : Suit) (extra : List Card) :
    pilesIds (p.set s { p.get s with cards := (p.get s).cards ++ extra })
      = pilesIds p + cardListIds extra := by
  cases s <;> simp [MemoryPiles.set, MemoryPiles.get, pilesIds, cardListIds_append] <;> abel

theorem pilesIds_queenBump (p : MemoryPiles) (s : Suit) :
    pilesIds (p.set s
      { p.get s with completedWithQueens := (p.get s).completedWithQueens + 1 })
      = pilesIds p := by
  cases s <;> simp [MemoryPiles.set, MemoryPiles.get, pilesIds]

theorem gameCardIds_pushForgotten (s : GameState) (card : Card) :
    gameCardIds { s with forgottenPile := s.forgottenPile ++ [card] }
      = gameCardIds s + {card.id} := by
  simp only [gameCardIds, cardListIds_append, cardListIds, Multiset.cons_zero]
  abel

theorem gameCardIds_resolveUpdate (s : GameState) (i : Nat) (seq : NarrativeSequence)
    (suit : Suit) (st : Status) (h : s.narrativeDeck.get? i = some seq) :
    gameCardIds { s with
      memoryPiles := s.memoryPiles.set suit
        { s.memoryPiles.get suit with cards := (s.memoryPiles.get suit).cards ++ seq.cards },
      narrativeDeck := s.narrativeDeck.set i { seq with cards := [] },
      gameStatus := st } = gameCardIds s := by
  simp only [gameCardIds]
  refine Multiset.ext.mpr fun a => ?_
  have h1 := congrArg (Multiset.count a)
    (seqListIds_set s.narrativeDeck i { seq with cards := [] } seq h)
  have h2 := congrArg (Multiset.count a) (pilesIds_append s.memoryPiles suit seq.cards)
  simp only [Multiset.count_add, cardListIds, Multiset.count_zero] at h1 h2 ⊢
  omega

theorem gameCardIds_processNarrativeSet (s : GameState) (i : Nat) :
    gameCardIds (processNarrativeSet s i).1 = gameCardIds s := by
  unfold processNarrativeSet
  cases h : s.narrativeDeck.get? i with
  | none => rfl
  | some seq =>
    dsimp only
    split
    · rfl
    · split
      · rfl
      · next first rest heq =>
        split
        · split
          · exact gameCardIds_resolveUpdate s i seq first.suit Status.lost h
          · split
            · exact gameCardIds_resolveUpdate s i seq first.suit Status.won h
            · exact gameCardIds_resolveUpdate s i seq first.suit s.gameStatus h
        · rfl

theorem gameCardIds_pushToSequence (s : GameState) (seqIndex : Nat) (card : Card)
    (seq : NarrativeSequence) (h : s.narrativeDeck.get? seqIndex = some seq) :
    gameCardIds (pushToSequence s seqIndex card) = gameCardIds s + {card.id} := by
  unfold pushToSequence
  rw [h]
  simp only [gameCardIds]
  refine Multiset.ext.mpr fun a => ?_
  have h1 := congrArg (Multiset.count a)
    (seqListIds_set s.narrativeDeck seqIndex { seq with cards := seq.cards ++ [card] } seq h)
  dsimp only at h1
  rw [cardListIds_append] at h1
  simp only [Multiset.count_add, cardListIds, Multiset.cons_zero, Multiset.count_zero] at h1 ⊢
  omega

theorem setSlot_zero (s : GameState) (col : Nat) (v : Option Card) :
    setSlot s 0 col v = { s with playDeck0 := s.playDeck0.set col v } := rfl

theorem setSlot_one (s : GameState) (col : Nat) (v : Option Card) :
    setSlot s 1 col v = { s with playDeck1 := s.playDeck1.set col v } := rfl

theorem gameCardIds_cascadeColumn (s : GameState) (row col : Nat) (x : Card)
    (hrow : row = 0 ∨ row = 1)
    (hslot : (if row = 0 then s.playDeck0 else s.playDeck1).get? col = some (some x))
    (hcol : col < s.playDeck1.length) :
    gameCardIds (cascadeColumn s row col) + {x.id} = gameCardIds s := by
  rcases hrow with hr | hr
  · subst hr
    rw [if_pos rfl] at hslot
    have ho1 : s.playDeck1.get? col = some (s.playDeck1.get ⟨col, hcol⟩) :=
      List.get?_eq_get hcol
    unfold cascadeColumn
    rw [setSlot_zero, getD_of_get? s.playDeck1 col _ ho1]
    simp only [gameCardIds]
    refine Multiset.ext.mpr fun a => ?_
    have h0 := congrArg (Multiset.count a)
      (rowIds_set s.playDeck0 col (s.playDeck1.get ⟨col, hcol⟩) (some x) hslot)
    have h1 := congrArg (Multiset.count a)
      (rowIds_set s.playDeck1 col s.mainDeck.head? (s.playDeck1.get ⟨col, hcol⟩) ho1)
    have h2 := congrArg (Multiset.count a) (cardListIds_head_tail s.mainDeck)
    simp only [Multiset.count_add, optIds] at h0 h1 h2 ⊢
    omega
  · subst hr
    rw [if_neg Nat.one_ne_zero] at hslot
    unfold cascadeColumn
    rw [setSlot_one, getD_of_get? s.playDeck1 col _ hslot]
    simp only [gameCardIds]
    refine Multiset.ext.mpr fun a => ?_
    have h0 := congrArg (Multiset.count a)
      (rowIds_set s.playDeck1 col (some x) (some x) hslot)
    have h1 := congrArg (Multiset.count a)
      (rowIds_set (s.playDeck1.set col (some x)) col s.mainDeck.head? (some x)
        (get?_set_self s.playDeck1 col (some x) hcol))
    have h2 := congrArg (Multiset.count a) (cardListIds_head_tail s.mainDeck)
    simp only [Multiset.count_add, optIds] at h0 h1 h2 ⊢
    omega

theorem gameCardIds_applyDropOnNarrative (s : GameState) (col seqIndex : Nat)
    (card x : Card) (seq : NarrativeSequence)
    (hslot : s.playDeck0.get? col = some (some x)) (hid : x.id = card.id)
    (hcol : col < s.playDeck1.length)
    (hseq : s.narrativeDeck.get? seqIndex = some seq) :
    gameCardIds (applyDropOnNarrative s col seqIndex card) = gameCardIds s := by
  have hpush := gameCardIds_pushToSequence s seqIndex card seq hseq
  have hrows0 : (pushToSequence s seqIndex card).playDeck0 = s.playDeck0 := by
    unfold pushToSequence; rw [hseq]
  have hrows1 : (pushToSequence s seqIndex card).playDeck1 = s.playDeck1 := by
    unfold pushToSequence; rw [hseq]
  have hcas := gameCardIds_cascadeColumn (pushToSequence s seqIndex card) 0 col x
    (Or.inl rfl) (by rw [if_pos rfl, hrows0]; exact hslot) (by rw [hrows1]; exact hcol)
  have hproc := gameCardIds_processNarrativeSet
    (cascadeColumn (pushToSequence s seqIndex card) 0 col) seqIndex
  have hfin : gameCardIds (applyDropOnNarrative s col seqIndex card)
      = gameCardIds (processNarrativeSet
          (cascadeColumn (pushToSequence s seqIndex card) 0 col) seqIndex).1 := by
    unfold applyDropOnNarrative
    dsimp only
    split
    · rfl
    · split <;> rfl
  rw [hfin, hproc]
  have hkey : gameCardIds (cascadeColumn (pushToSequence s seqIndex card) 0 col) + {card.id}
      = gameCardIds s + {card.id} := by
    rw [← hid, hcas, hpush, hid]
  exact add_right_cancel hkey

theorem gameCardIds_applyDropOnForgotten (s : GameState) (col : Nat) (card x : Card)
    (hslot : s.playDeck0.get? col = some (some x)) (hid : x.id = card.id) :
    gameCardIds (applyDropOnForgotten s col card) = gameCardIds s := by
  unfold applyDropOnForgotten
  simp only [gameCardIds]
  refine Multiset.ext.mpr fun a => ?_
  have h0 := congrArg (Multiset.count a) (rowIds_set s.playDeck0 col none (some x) hslot)
  have hf := congrArg (Multiset.count a) (cardListIds_append s.forgottenPile [card])
  simp only [Multiset.count_add, optIds, cardListIds, Multiset.cons_zero,
    Multiset.count_zero] at h0 hf ⊢
  rw [hid] at h0
  omega

theorem findCardPos_spec (s : GameState) (i : String) (r c : Nat)
    (h : findCardPos s i = some (r, c)) :
    (r = 0 ∨ r = 1) ∧
      ∃ x : Card, (if r = 0 then s.playDeck0 else s.playDeck1).get? c = some (some x)
        ∧ x.id = i := by
  unfold findCardPos at h
  cases h0 : findInRow s.playDeck0 i with
  | some j =>
    rw [h0] at h
    cases h
    obtain ⟨x, hx, hxi⟩ := findInRow_spec _ _ _ h0
    exact ⟨Or.inl rfl, x, by rw [if_pos rfl]; exact hx, hxi⟩
  | none =>
    rw [h0] at h
    cases h1 : findInRow s.playDeck1 i with
    | some j =>
      rw [h1] at h
      cases h
      obtain ⟨x, hx, hxi⟩ := findInRow_spec _ _ _ h1
      exact ⟨Or.inr rfl, x, by rw [if_neg Nat.one_ne_zero]; exact hx, hxi⟩
    | none =>
      rw [h1] at h
      cases h

theorem gameCardIds_discardAt (s : GameState) (row col : Nat) (card x : Card)
    (hrow : row = 0 ∨ row = 1)
    (hslot : (if row = 0 then s.playDeck0 else s.playDeck1).get? col = some (some x))
    (hid : x.id = card.id) :
    gameCardIds (let s1 := setSlot s row col none;
      { s1 with forgottenPile := s1.forgottenPile ++ [card] }) = gameCardIds s := by
  rcases hrow with hr | hr
  · subst hr
    rw [if_pos rfl] at hslot
    rw [setSlot_zero]
    simp only [gameCardIds]
    refine Multiset.ext.mpr fun a => ?_
    have h0 := congrArg (Multiset.count a) (rowIds_set s.playDeck0 col none (some x) hslot)
    have hf := congrArg (Multiset.count a) (cardListIds_append s.forgottenPile [card])
    simp only [Multiset.count_add, optIds, cardListIds, Multiset.cons_zero,
      Multiset.count_zero] at h0 hf ⊢
    rw [hid] at h0
    omega
  · subst hr
    rw [if_neg Nat.one_ne_zero] at hslot
    rw [setSlot_one]
    simp only [gameCardIds]
    refine Multiset.ext.mpr fun a => ?_
    have h0 := congrArg (Multiset.count a) (rowIds_set s.playDeck1 col none (some x) hslot)
    have hf := congrArg (Multiset.count a) (cardListIds_append s.forgottenPile [card])
    simp only [Multiset.count_add, optIds, cardListIds, Multiset.cons_zero,
      Multiset.count_zero] at h0 hf ⊢
    rw [hid] at h0
    omega

theorem gameCardIds_applyKingAction (s : GameState) (card : Card) (r c : Nat)
    (h : findCardPos s card.id = some (r, c)) :
    gameCardIds (applyKingAction s card) = gameCardIds s := by
  unfold applyKingAction
  rw [h]
  obtain ⟨hrow, x, hx, hxi⟩ := findCardPos_spec s card.id r c h
  exact gameCardIds_discardAt s r c card x hrow hx hxi

theorem gameCardIds_queenBumpState (s : GameState) (suit : Suit) (st : Status) :
    gameCardIds { s with
      memoryPiles := s.memoryPiles.set suit
        { s.memoryPiles.get suit with
          completedWithQueens := (s.memoryPiles.get suit).completedWithQueens + 1 },
      gameStatus := st } = gameCardIds s := by
  simp only [gameCardIds, pilesIds_queenBump]

theorem gameCardIds_applyQueenAction (s : GameState) (choice : QueenChoice) (card : Card)
    (hcol : ∀ qr qc, findCardPos s card.id = some (qr, qc) → qc < s.playDeck1.length) :
    gameCardIds (applyQueenAction s choice card) = gameCardIds s := by
  unfold applyQueenAction
  cases hp : findCardPos s card.id with
  | none => rfl
  | some rc =>
    obtain ⟨qr, qc⟩ := rc
    obtain ⟨hrow, x, hx, hxi⟩ := findCardPos_spec s card.id qr qc hp
    have hc : qc < s.playDeck1.length := hcol qr qc hp
    cases choice with
    | discardQueen =>
      exact gameCardIds_discardAt s qr qc card x hrow hx hxi
    | completeSet =>
      dsimp only
      by_cases hj : card.suit = Suit.joker
      · rw [if_pos hj]
      · rw [if_neg hj]
        have hpushf := gameCardIds_pushForgotten s card
        have hcas := gameCardIds_cascadeColumn
          { s with forgottenPile := s.forgottenPile ++ [card] } qr qc x hrow hx hc
        have hchain : gameCardIds
            (cascadeColumn { s with forgottenPile := s.forgottenPile ++ [card] } qr qc)
            = gameCardIds s := by
          have h2 : gameCardIds
              (cascadeColumn { s with forgottenPile := s.forgottenPile ++ [card] } qr qc)
                + {card.id}
              = gameCardIds s + {card.id} := by
            rw [← hxi, hcas, hpushf, hxi]
          exact add_right_cancel h2
        split
        · exact (gameCardIds_queenBumpState
            (cascadeColumn { s with forgottenPile := s.forgottenPile ++ [card] } qr qc)
            card.suit Status.lost).trans hchain
        · split
          · exact (gameCardIds_queenBumpState
              (cascadeColumn { s with forgottenPile := s.forgottenPile ++ [card] } qr qc)
              card.suit Status.won).trans hchain
          · exact (gameCardIds_queenBumpState
              (cascadeColumn { s with forgottenPile := s.forgottenPile ++ [card] } qr qc)
              card.suit (cascadeColumn
                { s with forgottenPile := s.forgottenPile ++ [card] } qr qc).gameStatus).trans
              hchain

theorem gameCardIds_applyJackDiscard (s : GameState) (card x : Card) (row col : Nat)
    (hrow : row = 0 ∨ row = 1)
    (hslot : (if row = 0 then s.playDeck0 else s.playDeck1).get? col = some (some x))
    (hid : x.id = card.id) :
    gameCardIds (applyJackDiscard s card row col) = gameCardIds s :=
  gameCardIds_discardAt s row col card x hrow hslot hid

theorem gameCardIds_applyResurrect (s : GameState) (jackCard : Card) (row col : Nat)
    (selected x y : Card)
    (hrow : row = 0 ∨ row = 1)
    (hslot : (if row = 0 then s.playDeck0 else s.playDeck1).get? col = some (some x))
    (hxid : x.id = jackCard.id)
    (hy : y ∈ s.forgottenPile) (hyid : y.id = selected.id) :
    gameCardIds (applyResurrect s jackCard row col selected) = gameCardIds s := by
  unfold applyResurrect
  dsimp only
  rcases hrow with hr | hr
  · subst hr
    rw [if_pos rfl] at hslot
    rw [setSlot_zero]
    simp only [gameCardIds]
    refine Multiset.ext.mpr fun a => ?_
    have h0 := congrArg (Multiset.count a)
      (rowIds_set s.playDeck0 col (some selected) (some x) hslot)
    have hrm := congrArg (Multiset.count a)
      (removeFirstById_ids s.forgottenPile selected.id ⟨y, hy, hyid⟩)
    have hap := congrArg (Multiset.count a)
      (cardListIds_append (removeFirstById s.forgottenPile selected.id) [jackCard])
    simp only [Multiset.count_add, optIds, cardListIds, Multiset.count_zero,
      Multiset.count_cons, Multiset.count_singleton] at h0 hrm hap ⊢
    rw [hxid] at h0
    omega
  · subst hr
    rw [if_neg Nat.one_ne_zero] at hslot
    rw [setSlot_one]
    simp only [gameCardIds]
    refine Multiset.ext.mpr fun a => ?_
    have h0 := congrArg (Multiset.count a)
      (rowIds_set s.playDeck1 col (some selected) (some x) hslot)
    have hrm := congrArg (Multiset.count a)
      (removeFirstById_ids s.forgottenPile selected.id ⟨y, hy, hyid⟩)
    have hap := congrArg (Multiset.count a)
      (cardListIds_append (removeFirstById s.forgottenPile selected.id) [jackCard])
    simp only [Multiset.count_add, optIds, cardListIds, Multiset.count_zero,
      Multiset.count_cons, Multiset.count_singleton] at h0 hrm hap ⊢
    rw [hxid] at h0
    omega

theorem gameCardIds_applyConfirmDiscard (s : GameState) (i : Nat) :
    gameCardIds (applyConfirmDiscard s i) = gameCardIds s := by
  unfold applyConfirmDiscard
  cases h : s.narrativeDeck.get? i with
  | none => rfl
  | some seq =>
    simp only [gameCardIds]
    refine Multiset.ext.mpr fun a => ?_
    have h1 := congrArg (Multiset.count a)
      (seqListIds_set s.narrativeDeck i { seq with cards := [] } seq h)
    have h2 := congrArg (Multiset.count a) (cardListIds_append s.forgottenPile seq.cards)
    simp only [Multiset.count_add, cardListIds, Multiset.count_zero] at h1 h2 ⊢
    omega

theorem gameCardIds_exhaustionCheck (s : GameState) :
    gameCardIds (exhaustionCheck s) = gameCardIds s := by
  unfold exhaustionCheck
  split <;> rfl

theorem gameCardIds_applyRefresh (s : GameState)
    (h : s.playDeck0.all (fun o => o.isNone) = true) :
    gameCardIds (applyRefresh s) = gameCardIds s := by
  unfold applyRefresh
  dsimp only
  simp only [gameCardIds]
  refine Multiset.ext.mpr fun a => ?_
  have h0 := congrArg (Multiset.count a) (rowIds_of_all_none s.playDeck0 h)
  have hd := congrArg (Multiset.count a) (drawSlots_ids 4 s.mainDeck)
  simp only [Multiset.count_add, Multiset.count_zero] at h0 hd ⊢
  omega

/-- One engine transition of the GameBoard, with the guards under which the
component fires it (a drop passes the source/admission checks; a royal
resolution commits a pending dialog whose card is still on the board; the
effects fire under their `useEffect` conditions).  Clicks and cancels only
toggle dialog state. -/
inductive Step : BoardState → BoardState → Prop where
  | dropNarrative (b : BoardState) (col seqIndex : Nat) (card x : Card)
      (seq : NarrativeSequence) :
      b.game.gameStatus = Status.playing →
      b.game.playDeck0.get? col = some (some x) →
      x.id = card.id →
      col < b.game.playDeck1.length →
      b.game.narrativeDeck.get? seqIndex = some seq →
      canDropOnSequence seq.cards card = true →
      Step b (dropOnNarrative b col seqIndex card)
  | dropForgotten (b : BoardState) (col : Nat) (card x : Card) :
      b.game.gameStatus = Status.playing →
      b.game.playDeck0.get? col = some (some x) →
      x.id = card.id →
      Step b (dropOnForgotten b col card)
  | kingClick (b : BoardState) (card : Card) : Step b (clickKing b card)
  | kingCancel (b : BoardState) : Step b (cancelKing b)
  | kingResolve (b : BoardState) (discardNarrative : Bool) (card : Card) (r c : Nat) :
      b.kingAction = some card →
      findCardPos b.game card.id = some (r, c) →
      Step b (resolveKing b discardNarrative card)
  | queenClick (b : BoardState) (card : Card) : Step b (clickQueen b card)
  | queenCancel (b : BoardState) : Step b (cancelQueen b)
  | queenResolve (b : BoardState) (choice : QueenChoice) (card : Card) :
      b.queenAction = some card →
      (∀ qr qc, findCardPos b.game card.id = some (qr, qc) → qc < b.game.playDeck1.length) →
      Step b (resolveQueen b choice card)
  | jackClick (b : BoardState) (card : Card) (row col : Nat) :
      Step b (clickJack b card row col)
  | jackCancel (b : BoardState) : Step b (cancelJack b)
  | jackResolveDiscard (b : BoardState) (card : Card) (row col : Nat) :
      b.jackAction = some (card, row, col) →
      (row = 0 ∨ row = 1) →
      (if row = 0 then b.game.playDeck0 else b.game.playDeck1).get? col = some (some card) →
      Step b (resolveJackDiscard b card row col)
  | jackResurrectChoose (b : BoardState) : Step b (chooseJackResurrect b)
  | resurrectSelect (b : BoardState) (jackCard selected y : Card) (row col : Nat) :
      b.jackAction = some (jackCard, row, col) →
      (row = 0 ∨ row = 1) →
      (if row = 0 then b.game.playDeck0 else b.game.playDeck1).get? col = some (some jackCard) →
      y ∈ b.game.forgottenPile →
      y.id = selected.id →
      Step b (selectResurrect b jackCard row col selected)
  | narrativeClick (b : BoardState) (i : Nat) : Step b (clickNarrativeForDiscard b i)
  | confirmDiscardStep (b : BoardState) (confirmed : Bool) :
      Step b (resolveConfirmDiscard b confirmed)
  | exhaustion (b : BoardState) : Step b (stepExhaustion b)
  | refresh (b : BoardState) :
      b.game.gameStatus = Status.playing →
      b.game.playDeck0.all (fun o => o.isNone) = true →
      b.game.mainDeck ≠ [] →
      Step b (stepRefresh b)

/-- Board states reachable through any sequence of engine transitions. -/
def Reachable (b b' : BoardState) : Prop := Relation.ReflTransGen Step b b'

theorem step_conserves (b b' : BoardState) (h : Step b b') :
    gameCardIds b'.game = gameCardIds b.game := by
  cases h with
  | dropNarrative col seqIndex card x seq hst hslot hid hcol hseq hadm =>
    exact gameCardIds_applyDropOnNarrative b.game col seqIndex card x seq hslot hid hcol hseq
  | dropForgotten col card x hst hslot hid =>
    exact gameCardIds_applyDropOnForgotten b.game col card x hslot hid
  | kingClick card =>
    unfold clickKing
    split <;> rfl
  | kingCancel => rfl
  | kingResolve dn card r c hk hf =>
    exact gameCardIds_applyKingAction b.game card r c hf
  | queenClick card =>
    unfold clickQueen
    split <;> rfl
  | queenCancel => rfl
  | queenResolve choice card hq hcol =>
    exact gameCardIds_applyQueenAction b.game choice card hcol
  | jackClick card row col =>
    unfold clickJack
    split <;> rfl
  | jackCancel => rfl
  | jackResolveDiscard card row col hj hrow hslot =>
    exact gameCardIds_applyJackDiscard b.game card card row col hrow hslot rfl
  | jackResurrectChoose =>
    unfold chooseJackResurrect
    split
    · rfl
    · split <;> rfl
  | resurrectSelect jackCard selected y row col hj hrow hslot hy hyid =>
    exact gameCardIds_applyResurrect b.game jackCard row col selected jackCard y
      hrow hslot rfl hy hyid
  | narrativeClick i =>
    unfold clickNarrativeForDiscard
    split <;> rfl
  | confirmDiscardStep confirmed =>
    unfold resolveConfirmDiscard
    split
    · rfl
    · next i _ =>
      split
      · exact gameCardIds_applyConfirmDiscard b.game i
      · rfl
  | exhaustion => exact gameCardIds_exhaustionCheck b.game
  | refresh hst hempty hne => exact gameCardIds_applyRefresh b.game hempty

theorem reachable_conserves (b b' : BoardState) (h : Reachable b b') :
    gameCardIds b'.game = gameCardIds b.game := by
  induction h with
  | refl => rfl
  | tail _ hstep ih => exact (step_conserves _ _ hstep).trans ih

theorem seqListIds_append (l₁ l₂ : List NarrativeSequence) :
    seqListIds (l₁ ++ l₂) = seqListIds l₁ + seqListIds l₂ := by
  induction l₁ with
  | nil => simp [seqListIds]
  | cons sq t ih => simp [seqListIds, ih]; abel

theorem cardListIds_reverse (l : List Card) :
    cardListIds l.reverse = cardListIds l := by
  induction l with
  | nil => rfl
  | cons c t ih =>
    simp only [List.reverse_cons, cardListIds_append, ih, cardListIds, Multiset.cons_zero]
    refine Multiset.ext.mpr fun a => ?_
    simp only [Multiset.count_add, Multiset.count_cons, Multiset.count_singleton]

theorem dealNarrative_ids (deck : List Card) (narr : List NarrativeSequence)
    (held : List Card) :
    seqListIds (dealNarrative deck narr held).1
      + cardListIds (dealNarrative deck narr held).2.1
      + cardListIds (dealNarrative deck narr held).2.2
      = seqListIds narr + cardListIds deck + cardListIds held := by
  induction deck generalizing narr held with
  | nil => simp [dealNarrative, cardListIds]
  | cons c rest ih =>
    unfold dealNarrative
    split
    · rfl
    · split
      · rw [ih narr (held ++ [c])]
        refine Multiset.ext.mpr fun a => ?_
        simp only [Multiset.count_add, cardListIds_append, cardListIds,
          Multiset.count_cons, Multiset.count_singleton, Multiset.count_zero,
          Multiset.cons_zero]
        omega
      · rw [ih _ held]
        rw [seqListIds_append]
        refine Multiset.ext.mpr fun a => ?_
        simp only [Multiset.count_add, seqListIds, cardListIds,
          Multiset.count_cons, Multiset.count_zero, Multiset.cons_zero,
          Multiset.count_singleton]
        omega

theorem pilesIds_empty :
    pilesIds ⟨⟨[], 0⟩, ⟨[], 0⟩, ⟨[], 0⟩, ⟨[], 0⟩, ⟨[], 0⟩⟩ = 0 := rfl

theorem gameCardIds_setupGame (goals : List Goal) (deck : List Card)
    (reshuffle : List Card → List Card)
    (hr : ∀ l, cardListIds (reshuffle l) = cardListIds l) :
    gameCardIds (setupGame goals deck reshuffle) = cardListIds deck := by
  unfold setupGame
  dsimp only
  simp only [gameCardIds]
  refine Multiset.ext.mpr fun a => ?_
  have hdeal := congrArg (Multiset.count a) (dealNarrative_ids deck [] [])
  have hresh := congrArg (Multiset.count a)
    (hr ((dealNarrative deck [] []).2.2.reverse ++ (dealNarrative deck [] []).2.1))
  have hrev := congrArg (Multiset.count a)
    (cardListIds_reverse (dealNarrative deck [] []).2.2)
  have hd0 := congrArg (Multiset.count a)
    (drawSlots_ids 4 (reshuffle ((dealNarrative deck [] []).2.2.reverse
      ++ (dealNarrative deck [] []).2.1)))
  have hd1 := congrArg (Multiset.count a)
    (drawSlots_ids 4 (drawSlots 4 (reshuffle ((dealNarrative deck [] []).2.2.reverse
      ++ (dealNarrative deck [] []).2.1))).2)
  rw [cardListIds_append] at hresh
  simp only [Multiset.count_add, seqListIds, cardListIds, rowIds, pilesIds_empty,
    Multiset.count_zero] at hdeal hresh hrev hd0 hd1 ⊢
  omega

/-- Claim C2: for every board state reachable from `setupGame` by any
sequence of engine transitions (drops, royal-power resolutions, cascades,
discards, the refresh and exhaustion effects), the multiset of card ids
spread across all containers — play rows, narrative sequences, memory
piles, forgotten pile and reserve deck — equals the multiset dealt at
setup: no card is ever duplicated or lost, including while a royal-power
decision is outstanding. -/
theorem c2_card_conservation (goals : List Goal) (deck : List Card)
    (reshuffle : List Card → List Card)
    (hr : ∀ l, cardListIds (reshuffle l) = cardListIds l)
    (b : BoardState)
    (h : Reachable (initialBoard (setupGame goals deck reshuffle)) b) :
    gameCardIds b.game = cardListIds deck := by
  have h1 := reachable_conserves _ _ h
  rw [h1]
  exact gameCardIds_setupGame goals deck reshuffle hr

/-- A concrete run of the conservation theorem: the full 54-card deck is
dealt, one exhaustion-check transition fires, and every card id is still
accounted for. -/
theorem c2_card_conservation_witness :
    gameCardIds (stepExhaustion (initialBoard (setupGame [] createDeck id))).game
      = cardListIds createDeck :=
  c2_card_conservation [] createDeck id (fun _ => rfl) _
    (Relation.ReflTransGen.single (Step.exhaustion _))

theorem MemoryPiles.get_set (p : MemoryPiles) (s t : Suit) (pile : MemoryPile) :
    (p.set s pile).get t = if t = s then pile else p.get t := by
  cases s <;> cases t <;> simp [MemoryPiles.set, MemoryPiles.get]

theorem cascadeColumn_goals (s : GameState) (row col : Nat) :
    (cascadeColumn s row col).goals = s.goals := by
  unfold cascadeColumn setSlot
  split
  · rfl
  · split <;> rfl

theorem cascadeColumn_memoryPiles (s : GameState) (row col : Nat) :
    (cascadeColumn s row col).memoryPiles = s.memoryPiles := by
  unfold cascadeColumn setSlot
  split
  · rfl
  · split <;> rfl

theorem cascadeColumn_gameStatus (s : GameState) (row col : Nat) :
    (cascadeColumn s row col).gameStatus = s.gameStatus := by
  unfold cascadeColumn setSlot
  split
  · rfl
  · split <;> rfl

theorem goalCount_congr (s₁ s₂ : GameState) (suit : Suit) (h : s₁.goals = s₂.goals) :
    goalCount s₁ suit = goalCount s₂ suit := by
  unfold goalCount
  rw [h]


theorem goalCount_eq (s : GameState) (suit : Suit) :
    goalCount s suit
      = (match s.goals.find? (fun g => decide (g.suit = suit)) with
          | some g => g.count
          | none => 0) := rfl

/-- Claim C1: `completedSets(suit)` is `floor(|pile.cards|/3) +
pile.completedWithQueens`, and whenever a mutation — a narrative-sequence
resolution or a Queen's "complete a set" — pushes `completedSets(suit)`
past `goal(suit).count`, the status becomes `lost` in that same
transition, not a later one. -/
theorem c1_overrun_is_immediate_loss :
    (∀ pile : MemoryPile,
      getCompletedSets pile = pile.cards.length / 3 + pile.completedWithQueens)
    ∧ (∀ (s : GameState) (i : Nat) (suit : Suit),
        getCompletedSets (s.memoryPiles.get suit) ≤ goalCount s suit →
        getCompletedSets ((processNarrativeSet s i).1.memoryPiles.get suit)
            > goalCount (processNarrativeSet s i).1 suit →
        (processNarrativeSet s i).1.gameStatus = Status.lost)
    ∧ (∀ (s : GameState) (card : Card) (suit : Suit),
        getCompletedSets (s.memoryPiles.get suit) ≤ goalCount s suit →
        getCompletedSets
            ((applyQueenAction s QueenChoice.completeSet card).memoryPiles.get suit)
            > goalCount (applyQueenAction s QueenChoice.completeSet card) suit →
        (applyQueenAction s QueenChoice.completeSet card).gameStatus = Status.lost) := by
  refine ⟨fun _ => rfl, ?_, ?_⟩
  · intro s i suit hle hgt
    unfold processNarrativeSet at hgt ⊢
    cases h : s.narrativeDeck.get? i with
    | none =>
      rw [h] at hgt
      dsimp only at hgt
      exact absurd hgt (by omega)
    | some seq =>
      rw [h] at hgt
      dsimp only at hgt ⊢
      by_cases hlen : seq.cards.length < 3
      · rw [if_pos hlen] at hgt
        dsimp only at hgt
        exact absurd hgt (by omega)
      · rw [if_neg hlen] at hgt ⊢
        cases heq : seq.cards.filter (fun c => !decide (c.rank = Rank.joker)) with
        | nil =>
          rw [heq] at hgt
          dsimp only at hgt
          exact absurd hgt (by omega)
        | cons first rest =>
          rw [heq] at hgt
          dsimp only at hgt ⊢
          by_cases hres : narrativeResolves s i = true
          · rw [if_pos hres] at hgt ⊢
            split at hgt
            · next hover =>
              rw [if_pos hover]
            · next hover =>
              exfalso
              by_cases hsuit : suit = first.suit
              · subst hsuit
                split at hgt <;>
                · rw [MemoryPiles.get_set, if_pos rfl] at hgt
                  simp only [goalCount_eq] at hgt hover
                  omega
              · split at hgt <;>
                · rw [MemoryPiles.get_set, if_neg hsuit] at hgt
                  simp only [goalCount_eq] at hgt hle
                  omega
          · rw [if_neg hres] at hgt
            dsimp only at hgt
            exact absurd hgt (by omega)
  · intro s card suit hle hgt
    unfold applyQueenAction at hgt ⊢
    cases hp : findCardPos s card.id with
    | none =>
      rw [hp] at hgt
      dsimp only at hgt
      exact absurd hgt (by omega)
    | some rc =>
      obtain ⟨qr, qc⟩ := rc
      rw [hp] at hgt
      dsimp only at hgt ⊢
      by_cases hj : card.suit = Suit.joker
      · rw [if_pos hj] at hgt
        exact absurd hgt (by omega)
      · rw [if_neg hj] at hgt ⊢
        have hcm : (cascadeColumn { s with forgottenPile := s.forgottenPile ++ [card] }
            qr qc).memoryPiles = s.memoryPiles :=
          (cascadeColumn_memoryPiles _ _ _).trans rfl
        have hcg : (cascadeColumn { s with forgottenPile := s.forgottenPile ++ [card] }
            qr qc).goals = s.goals :=
          (cascadeColumn_goals _ _ _).trans rfl
        rw [hcm] at hgt ⊢
        split at hgt
        · next hover =>
          rw [if_pos hover]
        · next hover =>
          exfalso
          by_cases hsuit : suit = card.suit
          · subst hsuit
            split at hgt <;>
            · rw [MemoryPiles.get_set, if_pos rfl] at hgt
              simp only [goalCount_eq] at hgt hover
              rw [hcg] at hgt hover
              omega
          · split at hgt <;>
            · rw [MemoryPiles.get_set, if_neg hsuit] at hgt
              simp only [goalCount_eq] at hgt hle
              rw [hcg] at hgt
              omega

/-- The Queen of spades used for the concrete overrun run. -/
def c1Queen : Card := ⟨"Q-spades", Suit.spades, Rank.queen⟩

/-- A playing state whose spades goal (1 set) is already met via a Queen;
one more Queen completion overruns it. -/
def c1State : GameState :=
  { goals := [⟨Suit.spades, 1⟩]
    playDeck0 := [some c1Queen]
    playDeck1 := [none]
    narrativeDeck := []
    forgottenPile := []
    memoryPiles := ⟨⟨[], 1⟩, ⟨[], 0⟩, ⟨[], 0⟩, ⟨[], 0⟩, ⟨[], 0⟩⟩
    mainDeck := []
    gameStatus := .playing }

/-- A concrete run of the overrun theorem: completing a second spades set
with a Queen against a goal of one drives the status to `lost` in the same
transition. -/
theorem c1_overrun_witness :
    getCompletedSets (c1State.memoryPiles.get Suit.spades) ≤ goalCount c1State Suit.spades
    ∧ getCompletedSets
        ((applyQueenAction c1State QueenChoice.completeSet c1Queen).memoryPiles.get Suit.spades)
        > goalCount (applyQueenAction c1State QueenChoice.completeSet c1Queen) Suit.spades
    ∧ (applyQueenAction c1State QueenChoice.completeSet c1Queen).gameStatus = Status.lost :=
  ⟨by decide, by decide,
    c1_overrun_is_immediate_loss.2.2 c1State c1Queen Suit.spades (by decide) (by decide)⟩

/-- Claim C3: after every set-completing mutation (a narrative resolution
or a Queen completion), and provided the overrun loss has not fired, the
status is `won` exactly when every suit's `completedSets` is at least its
goal count — a suit holding more than its goal still satisfies the win
test, because `checkWinCondition` compares with `>=`. -/
theorem c3_win_exactly_when_goals_met :
    (∀ (s : GameState) (i : Nat),
      s.gameStatus = Status.playing →
      narrativeResolves s i = true →
      (processNarrativeSet s i).1.gameStatus ≠ Status.lost →
      ((processNarrativeSet s i).1.gameStatus = Status.won
        ↔ checkWinCondition (processNarrativeSet s i).1 = true))
    ∧ (∀ (s : GameState) (card : Card) (qr qc : Nat),
      s.gameStatus = Status.playing →
      card.suit ≠ Suit.joker →
      findCardPos s card.id = some (qr, qc) →
      (applyQueenAction s QueenChoice.completeSet card).gameStatus ≠ Status.lost →
      ((applyQueenAction s QueenChoice.completeSet card).gameStatus = Status.won
        ↔ checkWinCondition (applyQueenAction s QueenChoice.completeSet card) = true))
    ∧ (∀ s : GameState, checkWinCondition s = true
        ↔ ∀ g ∈ s.goals, getCompletedSets (s.memoryPiles.get g.suit) ≥ g.count) := by
  refine ⟨?_, ?_, ?_⟩
  · intro s i hst hres hnl
    have hres0 := hres
    unfold processNarrativeSet at hnl ⊢
    cases h : s.narrativeDeck.get? i with
    | none =>
      unfold narrativeResolves at hres
      rw [h] at hres
      exact absurd hres (by simp)
    | some seq =>
      rw [h] at hnl
      unfold narrativeResolves at hres
      rw [h] at hres
      dsimp only at hres hnl ⊢
      by_cases hlen : seq.cards.length < 3
      · rw [if_pos hlen] at hres
        exact absurd hres (by simp)
      · rw [if_neg hlen] at hres hnl ⊢
        cases heq : seq.cards.filter (fun c => !decide (c.rank = Rank.joker)) with
        | nil =>
          rw [heq] at hres
          exact absurd hres (by simp)
        | cons first rest =>
          rw [heq] at hres hnl
          dsimp only at hres hnl ⊢
          rw [if_pos hres0] at hnl ⊢
          split at hnl
          · next hover =>
            exact absurd rfl hnl
          · next hover =>
            rw [if_neg hover]
            split at hnl
            · next hwin =>
              rw [if_pos hwin]
              exact iff_of_true rfl hwin
            · next hwin =>
              rw [if_neg hwin]
              refine iff_of_false ?_ ?_
              · intro hcon
                have h2 : s.gameStatus = Status.won := hcon
                rw [hst] at h2
                exact Status.noConfusion h2
              · intro hcon
                exact hwin hcon
  · intro s card qr qc hst hj hp hnl
    unfold applyQueenAction at hnl ⊢
    rw [hp] at hnl ⊢
    dsimp only at hnl ⊢
    rw [if_neg hj] at hnl ⊢
    split at hnl
    · next hover =>
      exact absurd rfl hnl
    · next hover =>
      rw [if_neg hover]
      split at hnl
      · next hwin =>
        rw [if_pos hwin]
        exact iff_of_true rfl hwin
      · next hwin =>
        rw [if_neg hwin]
        refine iff_of_false ?_ ?_
        · intro hcon
          have h2 : (cascadeColumn { s with forgottenPile := s.forgottenPile ++ [card] }
              qr qc).gameStatus = Status.won := hcon
          rw [cascadeColumn_gameStatus] at h2
          have h3 : s.gameStatus = Status.won := h2
          rw [hst] at h3
          exact Status.noConfusion h3
        · intro hcon
          exact hwin hcon
  · intro s
    simp [checkWinCondition, List.all_eq_true]

/-- A full 5-6-7 spades sequence ready to resolve. -/
def c3Seq : NarrativeSequence :=
  ⟨"narrative-0",
    [⟨"5-spades", Suit.spades, Rank.five⟩,
     ⟨"6-spades", Suit.spades, Rank.six⟩,
     ⟨"7-spades", Suit.spades, Rank.seven⟩]⟩

/-- A playing state where resolving `c3Seq` completes the single spades
goal. -/
def c3State : GameState :=
  { goals := [⟨Suit.spades, 1⟩]
    playDeck0 := []
    playDeck1 := []
    narrativeDeck := [c3Seq]
    forgottenPile := []
    memoryPiles := ⟨⟨[], 0⟩, ⟨[], 0⟩, ⟨[], 0⟩, ⟨[], 0⟩, ⟨[], 0⟩⟩
    mainDeck := []
    gameStatus := .playing }

/-- A concrete run of the win-condition theorem: resolving the 5-6-7
spades set meets every goal, so the status becomes `won`. -/
theorem c3_win_witness :
    (processNarrativeSet c3State 0).1.gameStatus = Status.won :=
  (c3_win_exactly_when_goals_met.1 c3State 0 (by decide) (by decide) (by decide)).mpr
    (by decide)

/-- Claim C4 counterexample: the claim says a same-suit sequence holding
only rank 5 "accepts any rank from 3 through 7", but the validator rejects
every rank-5 drop on it — a same-suit rank 5 trips the duplicate-rank
check, and an off-suit rank 5 trips the suit check. -/
theorem c4_counterexample :
    canDropOnSequence [⟨"5-spades", Suit.spades, Rank.five⟩]
        ⟨"extra-5-spades", Suit.spades, Rank.five⟩ = false
    ∧ canDropOnSequence [⟨"5-spades", Suit.spades, Rank.five⟩]
        ⟨"5-hearts", Suit.hearts, Rank.five⟩ = false := by
  decide

/-- Claim C4 as amended: a same-suit sequence holding ranks 5 and 7
accepts a rank-6 drop and rejects ranks 4, 8 and 9; a sequence holding
only rank 5 accepts same-suit ranks 3, 4, 6 and 7, and rejects ranks 2
and 8 — and also rank 5 itself, which the duplicate-rank rule bars. -/
theorem c4_admission_boundary :
    (canDropOnSequence
        [⟨"5-spades", Suit.spades, Rank.five⟩, ⟨"7-spades", Suit.spades, Rank.seven⟩]
        ⟨"6-spades", Suit.spades, Rank.six⟩ = true)
    ∧ (canDropOnSequence
        [⟨"5-spades", Suit.spades, Rank.five⟩, ⟨"7-spades", Suit.spades, Rank.seven⟩]
        ⟨"4-spades", Suit.spades, Rank.four⟩ = false)
    ∧ (canDropOnSequence
        [⟨"5-spades", Suit.spades, Rank.five⟩, ⟨"7-spades", Suit.spades, Rank.seven⟩]
        ⟨"8-spades", Suit.spades, Rank.eight⟩ = false)
    ∧ (canDropOnSequence
        [⟨"5-spades", Suit.spades, Rank.five⟩, ⟨"7-spades", Suit.spades, Rank.seven⟩]
        ⟨"9-spades", Suit.spades, Rank.nine⟩ = false)
    ∧ (canDropOnSequence [⟨"5-spades", Suit.spades, Rank.five⟩]
        ⟨"3-spades", Suit.spades, Rank.three⟩ = true)
    ∧ (canDropOnSequence [⟨"5-spades", Suit.spades, Rank.five⟩]
        ⟨"4-spades", Suit.spades, Rank.four⟩ = true)
    ∧ (canDropOnSequence [⟨"5-spades", Suit.spades, Rank.five⟩]
        ⟨"6-spades", Suit.spades, Rank.six⟩ = true)
    ∧ (canDropOnSequence [⟨"5-spades", Suit.spades, Rank.five⟩]
        ⟨"7-spades", Suit.spades, Rank.seven⟩ = true)
    ∧ (canDropOnSequence [⟨"5-spades", Suit.spades, Rank.five⟩]
        ⟨"2-spades", Suit.spades, Rank.two⟩ = false)
    ∧ (canDropOnSequence [⟨"5-spades", Suit.spades, Rank.five⟩]
        ⟨"8-spades", Suit.spades, Rank.eight⟩ = false)
    ∧ (canDropOnSequence [⟨"5-spades", Suit.spades, Rank.five⟩]
        ⟨"extra-5-spades", Suit.spades, Rank.five⟩ = false) := by
  decide

/-- The ranked (non-Wild) cards of a sequence, as `processNarrativeSet`
separates them. -/
def rankedCards (cards : List Card) : List Card :=
  cards.filter (fun c => !decide (c.rank = Rank.joker))

/-- The number of Wild (Joker) cards in a sequence. -/
def wildCount (cards : List Card) : Nat :=
  (cards.filter (fun c => decide (c.rank = Rank.joker))).length

/-- The rank values of the ranked cards. -/
def rankedValues (cards : List Card) : List Int :=
  (rankedCards cards).map (fun c => rankValue c.rank)

theorem ranked_add_wild (cards : List Card) :
    (rankedCards cards).length + wildCount cards = cards.length := by
  unfold rankedCards wildCount
  induction cards with
  | nil => rfl
  | cons c t ih =>
    by_cases hc : c.rank = Rank.joker
    · simp only [List.filter_cons, hc, decide_true_eq_true]
      simp only [List.filter_cons] at ih
      simp [List.length_cons]
      omega
    · simp only [List.filter_cons, hc]
      simp [hc, List.length_cons]
      omega

theorem get?_some_lt_length {α : Type _} (l : List α) (i : Nat) (x : α)
    (h : l.get? i = some x) : i < l.length := by
  induction l generalizing i with
  | nil => simp at h
  | cons a t ih =>
    cases i with
    | zero => exact Nat.succ_pos _
    | succ i =>
      simp only [List.get?] at h
      exact Nat.succ_lt_succ (ih i h)

theorem get?_set_self_seq (l : List NarrativeSequence) (i : Nat) (v : NarrativeSequence)
    (h : i < l.length) : (l.set i v).get? i = some v := by
  induction l generalizing i with
  | nil => simp at h
  | cons a t ih =>
    cases i with
    | zero => rfl
    | succ i => exact ih i (Nat.lt_of_succ_lt_succ h)

theorem narrativeResolves_iff_window (s : GameState) (i : Nat) (seq : NarrativeSequence)
    (hseq : s.narrativeDeck.get? i = some seq)
    (hlen : seq.cards.length = 3) :
    narrativeResolves s i = true ↔
      ((wildCount seq.cards = 0
          ∧ listMaxD (rankedValues seq.cards) - listMinD (rankedValues seq.cards) = 2)
        ∨ (wildCount seq.cards = 1
          ∧ listMaxD (rankedValues seq.cards) - listMinD (rankedValues seq.cards) ≤ 2)
        ∨ wildCount seq.cards = 2) := by
  have hpart := ranked_add_wild seq.cards
  unfold narrativeResolves
  rw [hseq]
  dsimp only
  rw [if_neg (by omega : ¬ seq.cards.length < 3)]
  cases heq : seq.cards.filter (fun c => !decide (c.rank = Rank.joker)) with
  | nil =>
    have h0 : (rankedCards seq.cards).length = 0 := by
      unfold rankedCards
      rw [heq]
      rfl
    constructor
    · intro h
      exact absurd h (by simp)
    · intro h
      rcases h with ⟨h1, _⟩ | ⟨h1, _⟩ | h1 <;> omega
  | cons first rest =>
    dsimp only
    have hrl : (rankedCards seq.cards).length = rest.length + 1 := by
      unfold rankedCards
      rw [heq]
      rfl
    have hvals : rankedValues seq.cards = (first :: rest).map (fun c => rankValue c.rank) := by
      unfold rankedValues rankedCards
      rw [heq]
    rw [hvals]
    have hcases : rest.length = 0 ∨ rest.length = 1 ∨ rest.length = 2 := by omega
    rcases hcases with h0 | h1 | h2
    · have hl : (first :: rest).length = 1 := by simp [h0]
      simp only [hl]
      norm_num
      right; right
      omega
    · have hl : (first :: rest).length = 2 := by simp [h1]
      simp only [hl]
      norm_num
      constructor
      · intro hd
        right; left
        exact ⟨by omega, hd⟩
      · intro h
        rcases h with ⟨h1', _⟩ | ⟨_, hd⟩ | h1' <;> omega
    · have hl : (first :: rest).length = 3 := by simp [h2]
      simp only [hl]
      norm_num
      constructor
      · intro hd
        left
        exact ⟨by omega, hd⟩
      · intro h
        rcases h with ⟨_, hd⟩ | ⟨h1', _⟩ | h1' <;> omega

/-- Claim C5: a full (3-card) narrative sequence resolves to the suit's
memory pile exactly when, after separating the Wild cards, the ranked
cards span the window their Wilds can fill — 0 Wilds: window exactly 2;
1 Wild: the two ranked cards differ by at most 2; 2 Wilds: any single
ranked card — and on resolution all three cards move to the memory pile
while the slot empties. -/
theorem c5_sequence_resolution (s : GameState) (i : Nat) (seq : NarrativeSequence)
    (hseq : s.narrativeDeck.get? i = some seq)
    (hlen : seq.cards.length = 3) :
    (((processNarrativeSet s i).1.narrativeDeck.get? i = some { seq with cards := [] })
      ↔ ((wildCount seq.cards = 0
            ∧ listMaxD (rankedValues seq.cards) - listMinD (rankedValues seq.cards) = 2)
        ∨ (wildCount seq.cards = 1
            ∧ listMaxD (rankedValues seq.cards) - listMinD (rankedValues seq.cards) ≤ 2)
        ∨ wildCount seq.cards = 2))
    ∧ (∀ first rest, rankedCards seq.cards = first :: rest →
        (processNarrativeSet s i).1.narrativeDeck.get? i = some { seq with cards := [] } →
        ((processNarrativeSet s i).1.memoryPiles.get first.suit).cards
          = (s.memoryPiles.get first.suit).cards ++ seq.cards) := by
  have hwindow := narrativeResolves_iff_window s i seq hseq hlen
  have hunres : ¬ narrativeResolves s i = true → (processNarrativeSet s i).1 = s := by
    intro hres
    unfold processNarrativeSet
    rw [hseq]
    dsimp only
    rw [if_neg (by omega : ¬ seq.cards.length < 3)]
    cases heq : seq.cards.filter (fun c => !decide (c.rank = Rank.joker)) with
    | nil => rfl
    | cons first rest =>
      dsimp only
      rw [if_neg hres]
  have hLHS : ((processNarrativeSet s i).1.narrativeDeck.get? i
      = some { seq with cards := [] }) ↔ narrativeResolves s i = true := by
    constructor
    · intro hcon
      by_cases hres : narrativeResolves s i = true
      · exact hres
      · exfalso
        rw [hunres hres] at hcon
        have h2 := hseq.symm.trans hcon
        injection h2 with h3
        have h4 : seq.cards = [] := congrArg NarrativeSequence.cards h3
        rw [h4] at hlen
        exact absurd hlen (by simp)
    · intro hres
      unfold processNarrativeSet
      rw [hseq]
      dsimp only
      rw [if_neg (by omega : ¬ seq.cards.length < 3)]
      cases heq : seq.cards.filter (fun c => !decide (c.rank = Rank.joker)) with
      | nil =>
        exfalso
        unfold narrativeResolves at hres
        rw [hseq] at hres
        dsimp only at hres
        rw [if_neg (by omega : ¬ seq.cards.length < 3)] at hres
        rw [heq] at hres
        exact absurd hres (by simp)
      | cons first rest =>
        dsimp only
        rw [if_pos hres]
        have hlt := get?_some_lt_length _ _ _ hseq
        split
        · exact get?_set_self_seq _ _ _ hlt
        · split
          · exact get?_set_self_seq _ _ _ hlt
          · exact get?_set_self_seq _ _ _ hlt
  refine ⟨hLHS.trans hwindow, ?_⟩
  intro first rest heq hres'
  have hres : narrativeResolves s i = true := hLHS.mp hres'
  unfold rankedCards at heq
  unfold processNarrativeSet
  rw [hseq]
  dsimp only
  rw [if_neg (by omega : ¬ seq.cards.length < 3)]
  rw [heq]
  dsimp only
  rw [if_pos hres]
  split
  · rw [MemoryPiles.get_set, if_pos rfl]
  · split
    · rw [MemoryPiles.get_set, if_pos rfl]
    · rw [MemoryPiles.get_set, if_pos rfl]

/-- A 5-spades / Wild / 7-spades sequence: one Joker bridging a gap of 2. -/
def c5Seq : NarrativeSequence :=
  ⟨"narrative-0",
    [⟨"5-spades", Suit.spades, Rank.five⟩,
     ⟨"Joker-1", Suit.joker, Rank.joker⟩,
     ⟨"7-spades", Suit.spades, Rank.seven⟩]⟩

/-- A playing state holding `c5Seq` as its only narrative sequence. -/
def c5State : GameState :=
  { goals := [⟨Suit.spades, 2⟩]
    playDeck0 := []
    playDeck1 := []
    narrativeDeck := [c5Seq]
    forgottenPile := []
    memoryPiles := ⟨⟨[], 0⟩, ⟨[], 0⟩, ⟨[], 0⟩, ⟨[], 0⟩, ⟨[], 0⟩⟩
    mainDeck := []
    gameStatus := .playing }

/-- A concrete run of the resolution theorem: a one-Wild sequence whose
ranked cards differ by 2 resolves, moving all three cards to the spades
pile and emptying the slot. -/
theorem c5_resolution_witness :
    (processNarrativeSet c5State 0).1.narrativeDeck.get? 0 = some { c5Seq with cards := [] }
    ∧ ((processNarrativeSet c5State 0).1.memoryPiles.get Suit.spades).cards
        = (c5State.memoryPiles.get Suit.spades).cards ++ c5Seq.cards :=
  ⟨(c5_sequence_resolution c5State 0 c5Seq rfl rfl).1.mpr (by decide),
   (c5_sequence_resolution c5State 0 c5Seq rfl rfl).2
     ⟨"5-spades", Suit.spades, Rank.five⟩ [⟨"7-spades", Suit.spades, Rank.seven⟩] rfl
     ((c5_sequence_resolution c5State 0 c5Seq rfl rfl).1.mpr (by decide))⟩

/-- The King used in the royal-spend counterexample. -/
def c6King : Card := ⟨"K-hearts", Suit.hearts, Rank.king⟩

/-- A playing board with the King of hearts in the front row. -/
def c6Board : BoardState :=
  initialBoard
    { goals := []
      playDeck0 := [some c6King]
      playDeck1 := [none]
      narrativeDeck := []
      forgottenPile := []
      memoryPiles := ⟨⟨[], 0⟩, ⟨[], 0⟩, ⟨[], 0⟩, ⟨[], 0⟩, ⟨[], 0⟩⟩
      mainDeck := []
      gameStatus := .playing }

/-- Claim C6 counterexample: playing (clicking) the King only opens its
dialog — while the follow-up decision is outstanding the King is still in
its play slot and the forgotten pile is still empty, and cancelling leaves
the game state exactly as before the click with the King not removed; so
the royal is not "moved to the forgotten pile immediately on landing,
before any follow-up choice", and cancelling does not "leave the royal
removed". -/
theorem c6_counterexample :
    (clickKing c6Board c6King).kingAction = some c6King
    ∧ (clickKing c6Board c6King).game.forgottenPile = []
    ∧ (clickKing c6Board c6King).game.playDeck0 = [some c6King]
    ∧ (cancelKing (clickKing c6Board c6King)).game = c6Board.game
    ∧ (cancelKing (clickKing c6Board c6King)).kingAction = none
    ∧ getSlot (cancelKing (clickKing c6Board c6King)).game 0 0 = some c6King := by
  decide

/-- Claim C6 as amended: a royal is spent only when a follow-up choice is
committed.  Clicking a royal opens its dialog without touching the game
state; cancelling discards only the pending record and leaves the game
state unchanged, the royal still in its slot; the King is removed from
the play deck into the forgotten pile when either of its two dialog
actions is committed. -/
theorem c6_royal_spend_on_commit :
    (∀ (b : BoardState) (card : Card),
      (clickKing b card).game = b.game ∧ (clickQueen b card).game = b.game)
    ∧ (∀ (b : BoardState) (card : Card) (row col : Nat),
        (clickJack b card row col).game = b.game)
    ∧ (∀ b : BoardState,
        (cancelKing b).game = b.game ∧ (cancelKing b).kingAction = none
        ∧ (cancelQueen b).game = b.game ∧ (cancelQueen b).queenAction = none
        ∧ (cancelJack b).game = b.game ∧ (cancelJack b).jackAction = none)
    ∧ (∀ (b : BoardState) (discardNarrative : Bool) (card : Card) (r c : Nat),
        findCardPos b.game card.id = some (r, c) →
        (resolveKing b discardNarrative card).game.forgottenPile
            = b.game.forgottenPile ++ [card]
          ∧ getSlot (resolveKing b discardNarrative card).game r c = none) := by
  refine ⟨?_, ?_, ?_, ?_⟩
  · intro b card
    constructor
    · unfold clickKing
      split <;> rfl
    · unfold clickQueen
      split <;> rfl
  · intro b card row col
    unfold clickJack
    split <;> rfl
  · intro b
    exact ⟨rfl, rfl, rfl, rfl, rfl, rfl⟩
  · intro b discardNarrative card r c hp
    obtain ⟨hrow, x, hx, hxi⟩ := findCardPos_spec b.game card.id r c hp
    have hres : (resolveKing b discardNarrative card).game = applyKingAction b.game card := rfl
    rw [hres]
    unfold applyKingAction
    rw [hp]
    dsimp only
    rcases hrow with hr | hr
    · subst hr
      rw [if_pos rfl] at hx
      rw [setSlot_zero]
      refine ⟨rfl, ?_⟩
      unfold getSlot
      rw [if_pos rfl]
      have hlt : c < b.game.playDeck0.length := get?_some_lt_length _ _ _ hx
      exact getD_of_get? _ _ _ (get?_set_self b.game.playDeck0 c none hlt)
    · subst hr
      rw [if_neg Nat.one_ne_zero] at hx
      rw [setSlot_one]
      refine ⟨rfl, ?_⟩
      unfold getSlot
      rw [if_neg Nat.one_ne_zero, if_pos rfl]
      have hlt : c < b.game.playDeck1.length := get?_some_lt_length _ _ _ hx
      exact getD_of_get? _ _ _ (get?_set_self b.game.playDeck1 c none hlt)

/-- A concrete run of the amended royal-spend theorem: committing "just
discard King" moves the King of hearts to the forgotten pile and empties
its slot. -/
theorem c6_royal_spend_witness :
    (resolveKing c6Board false c6King).game.forgottenPile
        = c6Board.game.forgottenPile ++ [c6King]
    ∧ getSlot (resolveKing c6Board false c6King).game 0 0 = none :=
  c6_royal_spend_on_commit.2.2.2 c6Board false c6King 0 0 (by decide)

/-- Claim C7: a played Jack's `resurrect` choice with a non-empty
forgotten pile removes exactly the selected card from the forgotten pile
(one card bearing the selected id), places it into the Jack's slot, and
puts the Jack itself into the forgotten pile; choosing `resurrect` while
the forgotten pile is empty is rejected and leaves the game state
unchanged. -/
theorem c7_jack_resurrection :
    (∀ (b : BoardState) (card : Card) (row col : Nat),
      b.jackAction = some (card, row, col) →
      b.game.forgottenPile = [] →
      (chooseJackResurrect b).game = b.game ∧ (chooseJackResurrect b).jackAction = none)
    ∧ (∀ (b : BoardState) (jackCard selected : Card) (row col : Nat),
        selected ∈ b.game.forgottenPile →
        (selectResurrect b jackCard row col selected).game.forgottenPile
          = removeFirstById b.game.forgottenPile selected.id ++ [jackCard])
    ∧ (∀ (b : BoardState) (jackCard selected : Card) (row col : Nat),
        (row = 0 ∨ row = 1) →
        col < (if row = 0 then b.game.playDeck0 else b.game.playDeck1).length →
        getSlot (selectResurrect b jackCard row col selected).game row col = some selected)
    ∧ (∀ (l : List Card) (selected : Card), selected ∈ l →
        selected.id ::ₘ cardListIds (removeFirstById l selected.id) = cardListIds l) := by
  refine ⟨?_, ?_, ?_, ?_⟩
  · intro b card row col hj hempty
    unfold chooseJackResurrect
    rw [hj]
    dsimp only
    rw [if_pos (by rw [hempty]; rfl)]
    exact ⟨rfl, rfl⟩
  · intro b jackCard selected row col hmem
    have h : (selectResurrect b jackCard row col selected).game
        = applyResurrect b.game jackCard row col selected := rfl
    rw [h]
    unfold applyResurrect setSlot
    split
    · rfl
    · split <;> rfl
  · intro b jackCard selected row col hrow hcol
    have h : (selectResurrect b jackCard row col selected).game
        = applyResurrect b.game jackCard row col selected := rfl
    rw [h]
    unfold applyResurrect
    rcases hrow with hr | hr
    · subst hr
      rw [if_pos rfl] at hcol
      rw [setSlot_zero]
      unfold getSlot
      rw [if_pos rfl]
      exact getD_of_get? _ _ _
        (get?_set_self b.game.playDeck0 col (some selected) hcol)
    · subst hr
      rw [if_neg Nat.one_ne_zero] at hcol
      rw [setSlot_one]
      unfold getSlot
      rw [if_neg Nat.one_ne_zero, if_pos rfl]
      exact getD_of_get? _ _ _
        (get?_set_self b.game.playDeck1 col (some selected) hcol)
  · intro l selected hmem
    exact removeFirstById_ids l selected.id ⟨selected, hmem, rfl⟩

/-- The board for the resurrection run: a spent-Jack scenario with the
forgotten pile holding the 7 of clubs and the Queen of diamonds. -/
def c7Board : BoardState :=
  { game :=
      { goals := []
        playDeck0 := [some ⟨"J-hearts", Suit.hearts, Rank.jack⟩]
        playDeck1 := [none]
        narrativeDeck := []
        forgottenPile := [⟨"7-clubs", Suit.clubs, Rank.seven⟩,
                          ⟨"Q-diamonds", Suit.diamonds, Rank.queen⟩]
        memoryPiles := ⟨⟨[], 0⟩, ⟨[], 0⟩, ⟨[], 0⟩, ⟨[], 0⟩, ⟨[], 0⟩⟩
        mainDeck := []
        gameStatus := .playing }
    kingAction := none
    queenAction := none
    jackAction := some (⟨"J-hearts", Suit.hearts, Rank.jack⟩, 0, 0)
    isDiscardMode := false
    confirmDiscard := none
    showResurrectDialog := true }

/-- A concrete run of the resurrection theorem: resurrecting the 7 of
clubs from [7♣, Q♦] leaves [Q♦, J♥] forgotten and the 7♣ in the Jack's
slot. -/
theorem c7_jack_resurrection_witness :
    (selectResurrect c7Board ⟨"J-hearts", Suit.hearts, Rank.jack⟩ 0 0
        ⟨"7-clubs", Suit.clubs, Rank.seven⟩).game.forgottenPile
      = removeFirstById c7Board.game.forgottenPile "7-clubs"
          ++ [⟨"J-hearts", Suit.hearts, Rank.jack⟩]
    ∧ getSlot (selectResurrect c7Board ⟨"J-hearts", Suit.hearts, Rank.jack⟩ 0 0
        ⟨"7-clubs", Suit.clubs, Rank.seven⟩).game 0 0
      = some ⟨"7-clubs", Suit.clubs, Rank.seven⟩ :=
  ⟨c7_jack_resurrection.2.1 c7Board ⟨"J-hearts", Suit.hearts, Rank.jack⟩
      ⟨"7-clubs", Suit.clubs, Rank.seven⟩ 0 0 (by decide),
   c7_jack_resurrection.2.2.1 c7Board ⟨"J-hearts", Suit.hearts, Rank.jack⟩
      ⟨"7-clubs", Suit.clubs, Rank.seven⟩ 0 0 (Or.inl rfl) (by decide)⟩

/-- Claim C8: whenever the reserve deck is empty, every play-row slot is
empty and the win condition is unmet, the exhaustion evaluation turns the
status to `lost`, and the engine does not remain in `playing` in such a
state. -/
theorem c8_exhaustion_loss (s : GameState)
    (hst : s.gameStatus = Status.playing)
    (hdeck : s.mainDeck = [])
    (hslots : allPlaySlotsEmpty s = true)
    (hwin : checkWinCondition s = false) :
    (exhaustionCheck s).gameStatus = Status.lost
      ∧ (exhaustionCheck s).gameStatus ≠ Status.playing := by
  unfold exhaustionCheck
  rw [if_pos]
  · exact ⟨rfl, by intro h; exact Status.noConfusion h⟩
  · rw [hst, hdeck, hslots, hwin]
    rfl

/-- A playing state with nothing left to play and an unmet spades goal. -/
def c8State : GameState :=
  { goals := [⟨Suit.spades, 1⟩]
    playDeck0 := [none, none, none, none]
    playDeck1 := [none, none, none, none]
    narrativeDeck := []
    forgottenPile := []
    memoryPiles := ⟨⟨[], 0⟩, ⟨[], 0⟩, ⟨[], 0⟩, ⟨[], 0⟩, ⟨[], 0⟩⟩
    mainDeck := []
    gameStatus := .playing }

/-- A concrete run of the exhaustion theorem. -/
theorem c8_exhaustion_witness :
    (exhaustionCheck c8State).gameStatus = Status.lost
      ∧ (exhaustionCheck c8State).gameStatus ≠ Status.playing :=
  c8_exhaustion_loss c8State (by decide) (by decide) (by decide) (by decide)

/-- Two front-row cards with a blocked column, and a back-row card under
an empty front slot. -/
def c9State : GameState :=
  { goals := []
    playDeck0 := [some ⟨"A-spades", Suit.spades, Rank.ace⟩,
                  some ⟨"2-spades", Suit.spades, Rank.two⟩, none, none]
    playDeck1 := [some ⟨"3-spades", Suit.spades, Rank.three⟩,
                  some ⟨"4-spades", Suit.spades, Rank.four⟩,
                  some ⟨"5-spades", Suit.spades, Rank.five⟩,
                  some ⟨"6-spades", Suit.spades, Rank.six⟩]
    narrativeDeck := []
    forgottenPile := []
    memoryPiles := ⟨⟨[], 0⟩, ⟨[], 0⟩, ⟨[], 0⟩, ⟨[], 0⟩, ⟨[], 0⟩⟩
    mainDeck := []
    gameStatus := .playing }

/-- Claim C9 counterexample: in a playing state, the front-row card in
column 1 occupies its slot yet is not playable (column 0 to its left is
occupied), and the back-row card in column 2 is not playable even though
the front-row slot above it is empty — contradicting "a front-row card is
always eligible" and "a back-row card is eligible exactly when the
front-row slot in the same column is empty". -/
theorem c9_counterexample :
    c9State.gameStatus = Status.playing
    ∧ getSlot c9State 0 1 = some ⟨"2-spades", Suit.spades, Rank.two⟩
    ∧ isPlayable c9State 0 1 = false
    ∧ getSlot c9State 0 2 = none
    ∧ getSlot c9State 1 2 = some ⟨"5-spades", Suit.spades, Rank.five⟩
    ∧ isPlayable c9State 1 2 = false := by
  decide

/-- Claim C9 as amended: in a playing state an occupied front-row slot is
playable exactly when every front-row slot to its left is empty, and
back-row cards are never directly playable (they reach play only through
column promotion). -/
theorem c9_playability :
    (∀ (s : GameState) (col : Nat) (card : Card),
      s.gameStatus = Status.playing →
      getSlot s 0 col = some card →
      (isPlayable s 0 col = true
        ↔ (s.playDeck0.take col).all (fun o => o.isNone) = true))
    ∧ (∀ (s : GameState) (row col : Nat), row ≠ 0 → isPlayable s row col = false) := by
  constructor
  · intro s col card hst hslot
    unfold isPlayable
    rw [hst, hslot]
    dsimp only
    rw [if_neg Nat.zero_ne_one, if_pos rfl]
    exact Iff.rfl
  · intro s row col hrow
    unfold isPlayable
    split
    · rfl
    · cases hslot : getSlot s row col with
      | none => rfl
      | some card =>
        dsimp only
        by_cases h1 : row = 1
        · rw [if_pos h1]
        · rw [if_neg h1]

/-- A concrete run of the amended playability theorem: the front-row card
in column 0 is playable (nothing to its left). -/
theorem c9_playability_witness :
    isPlayable c9State 0 0 = true :=
  (c9_playability.1 c9State 0 ⟨"A-spades", Suit.spades, Rank.ace⟩
      (by decide) (by decide)).mpr (by decide)

/-- Claim C10: a Wild (Joker) card dropped on a narrative sequence is
never rejected by the suit-match, duplicate-rank or rank-window checks:
for every sequence of length at most 2, a Joker drop is admitted. -/
theorem c10_joker_always_admitted (seqCards : List Card) (card : Card)
    (hj : card.rank = Rank.joker) (_hlen : seqCards.length ≤ 2) :
    canDropOnSequence seqCards card = true := by
  unfold canDropOnSequence
  simp [hj]

/-- A concrete run of the Joker-admission theorem: a Joker lands on a
5♠-7♠ sequence. -/
theorem c10_joker_witness :
    canDropOnSequence
      [⟨"5-spades", Suit.spades, Rank.five⟩, ⟨"7-spades", Suit.spades, Rank.seven⟩]
      ⟨"Joker-2", Suit.joker, Rank.joker⟩ = true :=
  c10_joker_always_admitted _ _ rfl (by decide)
